import Mathlib

/-!
Shallow embedding of the expiry-date normalizer in
`store/management/commands/update_product_expiry.py`.

The normalizer `_calculate_new_expiry(exp_value, years_to_add)` strips the
input, tries 12 regex-based format rules in a fixed order, and for the first
rule that matches structurally and passes month validation it re-renders the
string with the year advanced by `years_to_add`.

Modelling conventions (the Python source is the authority):
* strings are modelled as `List Char` internally, `String` at the boundary;
* the regex character class `\d` is modelled as the ASCII digits `0-9` and
  `[A-Za-z]` as the ASCII letters (the inputs the rules can consume);
* Python's `str.strip()` is modelled as stripping ASCII whitespace;
* Python's `%` on integers is Euclidean remainder (`Int.emod`), which agrees
  with Python's `%` for a positive modulus;
* Python's `f"{n:02d}"` / `f"{n:04d}"` are modelled by `pyFormat`, including
  the sign handling and the fact that the width is only a minimum;
* each regex in `EXP_PATTERNS` is anchored (`^...$`) and its groups exclude
  the separator character, so matching is modelled by splitting at the first
  occurrence of the separator and checking each side's character class.
-/

/-- ASCII digit, the model of the regex class `\d` (`'0'`..`'9'`). -/
def isPyDigit (c : Char) : Bool := 48 ≤ c.toNat && c.toNat ≤ 57

/-- ASCII letter, the model of the regex class `[A-Za-z]`. -/
def isAsciiLetter (c : Char) : Bool :=
  (65 ≤ c.toNat && c.toNat ≤ 90) || (97 ≤ c.toNat && c.toNat ≤ 122)

/-- ASCII whitespace stripped by Python's `str.strip()`:
space, tab, newline, carriage return, vertical tab, form feed. -/
def isPySpace (c : Char) : Bool :=
  c.toNat = 32 || c.toNat = 9 || c.toNat = 10 || c.toNat = 13 ||
    c.toNat = 11 || c.toNat = 12

/-- Python's `str.strip()` on the character list. -/
def pyStrip (l : List Char) : List Char :=
  ((l.dropWhile isPySpace).reverse.dropWhile isPySpace).reverse

/-- `str.lower()` on one ASCII character: `A`-`Z` maps to `a`-`z`,
everything else is unchanged. -/
def pyLower (c : Char) : Char :=
  if h : 65 ≤ c.toNat ∧ c.toNat ≤ 90 then
    Char.ofNatAux (c.toNat + 32) (Or.inl (by omega))
  else c

/-- `str.upper()` on one ASCII character: `a`-`z` maps to `A`-`Z`,
everything else is unchanged. -/
def pyUpper (c : Char) : Char :=
  if h : 97 ≤ c.toNat ∧ c.toNat ≤ 122 then
    Char.ofNatAux (c.toNat - 32) (Or.inl (by omega))
  else c

/-- `int(s)` on a digit-only string: decimal value of the digit list. -/
def parseDigits (l : List Char) : Nat :=
  l.foldl (fun acc c => 10 * acc + (c.toNat - 48)) 0

/-- Decimal digit character for a value `< 10` (`Nat.digitChar`-style). -/
def decDigit (d : Nat) : Char :=
  Char.ofNatAux (48 + d % 10) (Or.inl (by omega))

/-- Fuel-driven decimal rendering; `fuel` bounds the recursion depth. -/
def natDigitsCore : Nat → Nat → List Char → List Char
  | 0, _, acc => acc
  | fuel + 1, n, acc =>
    if n < 10 then decDigit n :: acc
    else natDigitsCore fuel (n / 10) (decDigit (n % 10) :: acc)

/-- Decimal digits of a natural number, most significant first. -/
def natDigits (n : Nat) : List Char := natDigitsCore (n + 1) n []

/-- Left-pad a digit list with `'0'` to a minimum width `w`. -/
def zfill (w : Nat) (ds : List Char) : List Char :=
  List.replicate (w - ds.length) '0' ++ ds

/-- Python's `f"{n:0wd}"`: zero-pad to minimum total width `w`; a negative
number keeps its sign in front of the zero padding. -/
def pyFormat (w : Nat) (n : Int) : List Char :=
  if n < 0 then '-' :: zfill (w - 1) (natDigits n.natAbs)
  else zfill w (natDigits n.toNat)

/-- Split at the first occurrence of `sep`; `none` when `sep` is absent. -/
def splitOnceChar (sep : Char) : List Char → Option (List Char × List Char)
  | [] => none
  | c :: cs =>
    if c = sep then some ([], cs)
    else (splitOnceChar sep cs).map (fun p => (c :: p.1, p.2))

/-- The `month_type` field of a format rule (`'text'` / `'numeric'`). -/
inductive MonthType where
  | text : MonthType
  | numeric : MonthType
deriving DecidableEq

/-- One entry of `Command.EXP_PATTERNS`: the data fields of the rule dict.
The regex of the entry is determined by these fields (see `ruleMatch`). -/
structure Rule where
  year_length : Nat
  separator : Option Char
  month_first : Bool
  month_type : MonthType
deriving DecidableEq

/-- `MONTH_MAP` from the source, in source order. -/
def MONTH_MAP : List (String × Nat) :=
  [("jan", 1), ("january", 1),
   ("feb", 2), ("february", 2),
   ("mar", 3), ("march", 3),
   ("apr", 4), ("april", 4),
   ("may", 5),
   ("jun", 6), ("june", 6),
   ("jul", 7), ("july", 7),
   ("aug", 8), ("august", 8),
   ("sep", 9), ("sept", 9), ("september", 9),
   ("oct", 10), ("october", 10),
   ("nov", 11), ("november", 11),
   ("dec", 12), ("december", 12)]

/-- `MONTH_MAP.get(month_text.lower())`. -/
def lookupMonth (mg : List Char) : Option Nat :=
  MONTH_MAP.lookup (String.mk (mg.map pyLower))

/-- `Command.EXP_PATTERNS`: the 12 rules, in source order.
1. `^([A-Za-z]+)-(\d{2})$`    2. `^([A-Za-z]+)-(\d{4})$`
3. `^([A-Za-z]+)/(\d{2})$`    4. `^([A-Za-z]+)/(\d{4})$`
5. `^(\d{1,2})/(\d{2})$`      6. `^(\d{1,2})-(\d{2})$`
7. `^(\d{1,2})/(\d{4})$`      8. `^(\d{1,2})-(\d{4})$`
9. `^(\d{4})/(\d{1,2})$`      10. `^(\d{4})-(\d{1,2})$`
11. `^(\d{2})(\d{2})$`        12. `^(\d{2})(\d{4})$` -/
def EXP_PATTERNS : List Rule :=
  [⟨2, some '-', true, MonthType.text⟩,
   ⟨4, some '-', true, MonthType.text⟩,
   ⟨2, some '/', true, MonthType.text⟩,
   ⟨4, some '/', true, MonthType.text⟩,
   ⟨2, some '/', true, MonthType.numeric⟩,
   ⟨2, some '-', true, MonthType.numeric⟩,
   ⟨4, some '/', true, MonthType.numeric⟩,
   ⟨4, some '-', true, MonthType.numeric⟩,
   ⟨4, some '/', false, MonthType.numeric⟩,
   ⟨4, some '-', false, MonthType.numeric⟩,
   ⟨2, none, true, MonthType.numeric⟩,
   ⟨4, none, true, MonthType.numeric⟩]

/-- `pattern['regex'].match(exp_value)`: structural match of a rule's
anchored regex, returning the `(month-group, year-group)` captures.
Since every group's character class excludes the separator, the regex
matches exactly when the string splits at the first separator occurrence
into parts passing the class and length checks. -/
def ruleMatch (r : Rule) (s : List Char) : Option (List Char × List Char) :=
  match r.separator with
  | none =>
    -- `^(month:\d{2})(year:\d{year_length})$`
    if s.length = 2 + r.year_length ∧ s.all isPyDigit then
      some (s.take 2, s.drop 2)
    else none
  | some sep =>
    match splitOnceChar sep s with
    | none => none
    | some (a, b) =>
      match r.month_type with
      | MonthType.text =>
        -- `^(month_text:[A-Za-z]+)sep(year:\d{year_length})$`
        if a ≠ [] ∧ a.all isAsciiLetter ∧ b.length = r.year_length ∧
            b.all isPyDigit then
          some (a, b)
        else none
      | MonthType.numeric =>
        if r.month_first then
          -- `^(month:\d{1,2})sep(year:\d{year_length})$`
          if 1 ≤ a.length ∧ a.length ≤ 2 ∧ a.all isPyDigit ∧
              b.length = r.year_length ∧ b.all isPyDigit then
            some (a, b)
          else none
        else
          -- `^(year:\d{4})sep(month:\d{1,2})$`
          if a.length = 4 ∧ a.all isPyDigit ∧ 1 ≤ b.length ∧
              b.length ≤ 2 ∧ b.all isPyDigit then
            some (b, a)
          else none

/-- A successful classification: the matched rule, the validated month
number, the original month text (text rules only), and the matched year. -/
structure Parsed where
  rule : Rule
  month : Nat
  month_text : Option (List Char)
  year : Nat
deriving DecidableEq

/-- One iteration of the matcher loop body, up to the point where the
code commits to a rule: regex match plus month validation.  `none` means
`continue` (no structural match, unknown month name, or month outside
`[1,12]`).  The `int()` conversions cannot fail here because the groups
are digit-only (see `ruleMatch_groups`). -/
def matchValidate (r : Rule) (s : List Char) : Option Parsed :=
  match ruleMatch r s with
  | none => none
  | some (mg, yg) =>
    match r.month_type with
    | MonthType.text =>
      if mg = [] then none
      else
        match lookupMonth mg with
        | none => none
        | some m => some ⟨r, m, some mg, parseDigits yg⟩
    | MonthType.numeric =>
      if mg = [] then none
      else
        let m := parseDigits mg
        if m < 1 ∨ m > 12 then none
        else some ⟨r, m, none, parseDigits yg⟩

/-- `month_text[0].upper() + month_text[1:].lower()`; total model, only
applied to the non-empty `month_text` capture. -/
def capFirst : List Char → List Char
  | [] => []
  | c :: rest => pyUpper c :: rest.map pyLower

/-- The formatted month: text months are re-capitalized, numeric months
are rendered as `f"{month:02d}"`. -/
def formatMonth (p : Parsed) : List Char :=
  match p.month_text with
  | some t => capFirst t
  | none => pyFormat 2 (p.month : Int)

/-- The formatted year: a 2-digit rule reduces `new_year` modulo 100 and
renders `f"{new_year:02d}"`; otherwise `f"{new_year:04d}"`. -/
def formatYear (r : Rule) (newYear : Int) : List Char :=
  if r.year_length = 2 then pyFormat 2 (Int.emod newYear 100)
  else pyFormat 4 newYear

/-- Reassembly of the output string from the formatted month and year,
using the matched rule's separator and field order. -/
def assemble (r : Rule) (fm fy : List Char) : List Char :=
  match r.separator with
  | some sep => if r.month_first then fm ++ sep :: fy else fy ++ sep :: fm
  | none => if r.month_first then fm ++ fy else fy ++ fm

/-- Lines 362-392 of the source: compute `new_year = year + years_to_add`,
format year and month, and reassemble in the rule's shape. -/
def apply_offset (p : Parsed) (k : Int) : List Char :=
  assemble p.rule (formatMonth p) (formatYear p.rule ((p.year : Int) + k))

/-- The matcher part of `_calculate_new_expiry`: strip, return `NoMatch`
on empty, then try the rules in order and return the first success. -/
def classify (raw : String) : Option Parsed :=
  let s := pyStrip raw.data
  if s = [] then none
  else EXP_PATTERNS.findSome? (fun r => matchValidate r s)

/-- `_calculate_new_expiry(exp_value, years_to_add)`: `none` models the
Python `None` return, `some` the adjusted expiry string. -/
def calculate_new_expiry (exp_value : String) (years_to_add : Int) :
    Option String :=
  (classify exp_value).map (fun p => String.mk (apply_offset p years_to_add))

/-! ### Character-level lemmas -/

theorem char_eq_of_toNat_eq {a b : Char} (h : a.toNat = b.toNat) : a = b :=
  Char.ext (UInt32.ext h)

theorem toNat_pyLower (c : Char) :
    (pyLower c).toNat =
      if 65 ≤ c.toNat ∧ c.toNat ≤ 90 then c.toNat + 32 else c.toNat := by
  by_cases h : 65 ≤ c.toNat ∧ c.toNat ≤ 90
  · rw [if_pos h]; unfold pyLower; rw [dif_pos h]; rfl
  · rw [if_neg h]; unfold pyLower; rw [dif_neg h]

theorem toNat_pyUpper (c : Char) :
    (pyUpper c).toNat =
      if 97 ≤ c.toNat ∧ c.toNat ≤ 122 then c.toNat - 32 else c.toNat := by
  by_cases h : 97 ≤ c.toNat ∧ c.toNat ≤ 122
  · rw [if_pos h]; unfold pyUpper; rw [dif_pos h]; rfl
  · rw [if_neg h]; unfold pyUpper; rw [dif_neg h]

theorem isPyDigit_iff {c : Char} :
    isPyDigit c = true ↔ 48 ≤ c.toNat ∧ c.toNat ≤ 57 := by
  simp [isPyDigit]

theorem isAsciiLetter_iff {c : Char} :
    isAsciiLetter c = true ↔
      (65 ≤ c.toNat ∧ c.toNat ≤ 90) ∨ (97 ≤ c.toNat ∧ c.toNat ≤ 122) := by
  simp [isAsciiLetter]

theorem isPySpace_iff {c : Char} :
    isPySpace c = true ↔
      c.toNat = 32 ∨ c.toNat = 9 ∨ c.toNat = 10 ∨ c.toNat = 13 ∨
        c.toNat = 11 ∨ c.toNat = 12 := by
  simp [isPySpace]
  tauto

theorem pyLower_pyLower (c : Char) : pyLower (pyLower c) = pyLower c := by
  apply char_eq_of_toNat_eq
  simp only [toNat_pyLower]
  split_ifs <;> omega

theorem pyLower_pyUpper (c : Char) : pyLower (pyUpper c) = pyLower c := by
  apply char_eq_of_toNat_eq
  simp only [toNat_pyLower, toNat_pyUpper]
  split_ifs <;> omega

theorem pyUpper_pyUpper (c : Char) : pyUpper (pyUpper c) = pyUpper c := by
  apply char_eq_of_toNat_eq
  simp only [toNat_pyUpper]
  split_ifs <;> omega

theorem isAsciiLetter_pyLower {c : Char} (h : isAsciiLetter c = true) :
    isAsciiLetter (pyLower c) = true := by
  rw [isAsciiLetter_iff] at h ⊢
  rw [toNat_pyLower]
  split_ifs <;> omega

theorem isAsciiLetter_pyUpper {c : Char} (h : isAsciiLetter c = true) :
    isAsciiLetter (pyUpper c) = true := by
  rw [isAsciiLetter_iff] at h ⊢
  rw [toNat_pyUpper]
  split_ifs <;> omega

theorem not_digit_of_letter {c : Char} (h : isAsciiLetter c = true) :
    isPyDigit c = false := by
  have h1 := isAsciiLetter_iff.mp h
  rw [Bool.eq_false_iff]
  intro hd
  have h2 := isPyDigit_iff.mp hd
  omega

theorem not_letter_of_digit {c : Char} (h : isPyDigit c = true) :
    isAsciiLetter c = false := by
  have h1 := isPyDigit_iff.mp h
  rw [Bool.eq_false_iff]
  intro hd
  have h2 := isAsciiLetter_iff.mp hd
  omega

theorem not_space_of_digit {c : Char} (h : isPyDigit c = true) :
    isPySpace c = false := by
  have h1 := isPyDigit_iff.mp h
  rw [Bool.eq_false_iff]
  intro hd
  have h2 := isPySpace_iff.mp hd
  omega

theorem not_space_of_letter {c : Char} (h : isAsciiLetter c = true) :
    isPySpace c = false := by
  have h1 := isAsciiLetter_iff.mp h
  rw [Bool.eq_false_iff]
  intro hd
  have h2 := isPySpace_iff.mp hd
  omega

theorem ne_dash_of_digit {c : Char} (h : isPyDigit c = true) : c ≠ '-' := by
  intro he; rw [he] at h; exact absurd h (by decide)

theorem ne_slash_of_digit {c : Char} (h : isPyDigit c = true) : c ≠ '/' := by
  intro he; rw [he] at h; exact absurd h (by decide)

theorem ne_dash_of_letter {c : Char} (h : isAsciiLetter c = true) : c ≠ '-' := by
  intro he; rw [he] at h; exact absurd h (by decide)

theorem ne_slash_of_letter {c : Char} (h : isAsciiLetter c = true) : c ≠ '/' := by
  intro he; rw [he] at h; exact absurd h (by decide)

theorem toNat_decDigit (d : Nat) : (decDigit d).toNat = 48 + d % 10 := rfl

theorem isPyDigit_decDigit (d : Nat) : isPyDigit (decDigit d) = true := by
  rw [isPyDigit_iff, toNat_decDigit]
  omega

/-! ### Decimal rendering and parsing lemmas -/

theorem natDigitsCore_acc (fuel : Nat) :
    ∀ (n : Nat) (acc : List Char),
      natDigitsCore fuel n acc = natDigitsCore fuel n [] ++ acc := by
  induction fuel with
  | zero => intro n acc; rfl
  | succ f ih =>
    intro n acc
    by_cases h : n < 10
    · simp [natDigitsCore, h]
    · simp only [natDigitsCore, if_neg h]
      rw [ih (n / 10) (decDigit (n % 10) :: acc),
        ih (n / 10) [decDigit (n % 10)], List.append_assoc]
      rfl

theorem natDigitsCore_fuel (f₁ : Nat) :
    ∀ (f₂ n : Nat), n < f₁ → n < f₂ →
      natDigitsCore f₁ n [] = natDigitsCore f₂ n [] := by
  induction f₁ with
  | zero => intro f₂ n h₁; omega
  | succ f ih =>
    intro f₂ n h₁ h₂
    match f₂, h₂ with
    | f₂' + 1, _ =>
      by_cases h : n < 10
      · simp [natDigitsCore, h]
      · simp only [natDigitsCore, if_neg h]
        rw [natDigitsCore_acc f, natDigitsCore_acc f₂']
        have hd : n / 10 < n := Nat.div_lt_self (by omega) (by omega)
        rw [ih f₂' (n / 10) (by omega) (by omega)]

theorem natDigits_unfold (n : Nat) :
    natDigits n =
      if n < 10 then [decDigit n]
      else natDigits (n / 10) ++ [decDigit (n % 10)] := by
  by_cases h : n < 10
  · simp [natDigits, natDigitsCore, h]
  · rw [if_neg h]
    show natDigitsCore (n + 1) n [] = _
    have hn1 : n + 1 = n + 1 := rfl
    simp only [natDigitsCore, if_neg h]
    rw [natDigitsCore_acc n]
    have hd : n / 10 < n := Nat.div_lt_self (by omega) (by omega)
    rw [natDigitsCore_fuel n (n / 10 + 1) (n / 10) (by omega) (by omega)]
    rfl

theorem natDigits_ne_nil (n : Nat) : natDigits n ≠ [] := by
  rw [natDigits_unfold]
  split
  · simp
  · simp

theorem natDigits_all_digits (n : Nat) :
    ∀ c ∈ natDigits n, isPyDigit c = true := by
  induction n using Nat.strong_induction_on with
  | _ n ih =>
    rw [natDigits_unfold]
    by_cases h : n < 10
    · rw [if_pos h]
      intro c hc
      rw [List.mem_singleton] at hc
      rw [hc]
      exact isPyDigit_decDigit n
    · rw [if_neg h]
      intro c hc
      rw [List.mem_append] at hc
      rcases hc with hc | hc
      · exact ih (n / 10) (Nat.div_lt_self (by omega) (by omega)) c hc
      · rw [List.mem_singleton] at hc
        rw [hc]
        exact isPyDigit_decDigit (n % 10)

theorem parseDigits_append_digit (l : List Char) (c : Char) :
    parseDigits (l ++ [c]) = 10 * parseDigits l + (c.toNat - 48) := by
  simp [parseDigits, List.foldl_append]

theorem parseDigits_natDigits (n : Nat) : parseDigits (natDigits n) = n := by
  induction n using Nat.strong_induction_on with
  | _ n ih =>
    rw [natDigits_unfold]
    by_cases h : n < 10
    · rw [if_pos h]
      show 10 * 0 + ((decDigit n).toNat - 48) = n
      rw [toNat_decDigit]
      omega
    · rw [if_neg h, parseDigits_append_digit,
        ih (n / 10) (Nat.div_lt_self (by omega) (by omega)), toNat_decDigit]
      omega

theorem natDigits_length_le (k : Nat) :
    ∀ n : Nat, n < 10 ^ k → 1 ≤ k → (natDigits n).length ≤ k := by
  induction k with
  | zero => intro n h hk; omega
  | succ k ih =>
    intro n h hk
    rw [natDigits_unfold]
    by_cases h10 : n < 10
    · rw [if_pos h10]
      simp
    · rw [if_neg h10]
      rw [List.length_append, List.length_singleton]
      have hk1 : 1 ≤ k := by
        by_contra hc
        have : k = 0 := by omega
        rw [this] at h
        simp at h
        omega
      have hlt : n / 10 < 10 ^ k := by
        rw [Nat.div_lt_iff_lt_mul (by omega)]
        calc n < 10 ^ (k + 1) := h
        _ = 10 ^ k * 10 := by ring
      have := ih (n / 10) hlt hk1
      omega

theorem parseDigits_zfill (w : Nat) (ds : List Char) :
    parseDigits (zfill w ds) = parseDigits ds := by
  unfold zfill parseDigits
  rw [List.foldl_append]
  have : ∀ j : Nat, List.foldl (fun acc c => 10 * acc + (c.toNat - 48)) 0
      (List.replicate j '0') = 0 := by
    intro j
    induction j with
    | zero => rfl
    | succ j ihj =>
      rw [List.replicate_succ, List.foldl_cons]
      show List.foldl _ (10 * 0 + ('0'.toNat - 48)) _ = 0
      simpa using ihj
  rw [this]

theorem zfill_length (w : Nat) (ds : List Char) (h : ds.length ≤ w) :
    (zfill w ds).length = w := by
  simp [zfill]
  omega

theorem zfill_all_digits (w : Nat) (ds : List Char)
    (h : ∀ c ∈ ds, isPyDigit c = true) :
    ∀ c ∈ zfill w ds, isPyDigit c = true := by
  intro c hc
  rw [zfill, List.mem_append] at hc
  rcases hc with hc | hc
  · rw [List.eq_of_mem_replicate hc]
    decide
  · exact h c hc

theorem pyFormat_nonneg {n : Int} (h : 0 ≤ n) (w : Nat) :
    pyFormat w n = zfill w (natDigits n.toNat) := by
  rw [pyFormat, if_neg (by omega)]

theorem pyFormat_all_digits {n : Int} (h : 0 ≤ n) (w : Nat) :
    ∀ c ∈ pyFormat w n, isPyDigit c = true := by
  rw [pyFormat_nonneg h]
  exact zfill_all_digits w _ (natDigits_all_digits n.toNat)

theorem pyFormat_length {n : Int} (w : Nat) (h : 0 ≤ n) (hw : 1 ≤ w)
    (hn : n < 10 ^ w) : (pyFormat w n).length = w := by
  rw [pyFormat_nonneg h]
  apply zfill_length
  apply natDigits_length_le w n.toNat _ hw
  have h2 : (n.toNat : Int) < (10 : Int) ^ w := by rwa [Int.toNat_of_nonneg h]
  exact_mod_cast h2

theorem parseDigits_pyFormat {n : Int} (h : 0 ≤ n) (w : Nat) :
    parseDigits (pyFormat w n) = n.toNat := by
  rw [pyFormat_nonneg h, parseDigits_zfill, parseDigits_natDigits]

theorem parseDigits_lt (l : List Char) (h : ∀ c ∈ l, isPyDigit c = true) :
    parseDigits l < 10 ^ l.length := by
  have key : ∀ (t : List Char) (acc : Nat), (∀ c ∈ t, isPyDigit c = true) →
      List.foldl (fun acc c => 10 * acc + (c.toNat - 48)) acc t <
        (acc + 1) * 10 ^ t.length := by
    intro t
    induction t with
    | nil => intro acc _; simp
    | cons c cs ih =>
      intro acc hall
      rw [List.foldl_cons, List.length_cons]
      have hc := isPyDigit_iff.mp (hall c (List.mem_cons_self c cs))
      calc List.foldl _ (10 * acc + (c.toNat - 48)) cs
          < (10 * acc + (c.toNat - 48) + 1) * 10 ^ cs.length :=
            ih _ (fun x hx => hall x (List.mem_cons_of_mem c hx))
        _ ≤ ((acc + 1) * 10) * 10 ^ cs.length :=
            Nat.mul_le_mul_right _ (by omega)
        _ = (acc + 1) * 10 ^ (cs.length + 1) := by ring
  have := key l 0 h
  unfold parseDigits
  omega

/-! ### Splitting, stripping and search lemmas -/

theorem splitOnceChar_eq_none {sep : Char} {l : List Char} (h : sep ∉ l) :
    splitOnceChar sep l = none := by
  induction l with
  | nil => rfl
  | cons c cs ih =>
    rw [List.mem_cons, not_or] at h
    rw [splitOnceChar, if_neg (fun he => h.1 he.symm), ih h.2]
    rfl

theorem splitOnceChar_append {sep : Char} {a : List Char} (b : List Char)
    (h : sep ∉ a) : splitOnceChar sep (a ++ sep :: b) = some (a, b) := by
  induction a with
  | nil => simp [splitOnceChar]
  | cons c cs ih =>
    rw [List.mem_cons, not_or] at h
    rw [List.cons_append, splitOnceChar, if_neg (fun he => h.1 he.symm),
      ih h.2]
    rfl

theorem splitOnceChar_inv {sep : Char} :
    ∀ {l a b : List Char}, splitOnceChar sep l = some (a, b) →
      l = a ++ sep :: b ∧ sep ∉ a := by
  intro l
  induction l with
  | nil => intro a b h; exact Option.noConfusion h
  | cons c cs ih =>
    intro a b h
    rw [splitOnceChar] at h
    by_cases hc : c = sep
    · rw [if_pos hc] at h
      injection h with h
      injection h with h1 h2
      subst h1; subst h2; subst hc
      simp
    · rw [if_neg hc] at h
      cases hsp : splitOnceChar sep cs with
      | none => rw [hsp] at h; exact absurd h (by simp)
      | some p =>
        rw [hsp] at h
        obtain ⟨a', b'⟩ := p
        injection h with h
        injection h with h1 h2
        obtain ⟨he, hm⟩ := ih hsp
        subst h1; subst h2
        constructor
        · rw [List.cons_append, he]
        · rw [List.mem_cons, not_or]
          exact ⟨fun hx => hc hx.symm, hm⟩

theorem dropWhile_eq_self_of_none {p : Char → Bool} {l : List Char}
    (h : ∀ c ∈ l, p c = false) : l.dropWhile p = l := by
  cases l with
  | nil => rfl
  | cons c cs =>
    rw [List.dropWhile_cons, h c (List.mem_cons_self c cs)]
    rfl

theorem pyStrip_eq_self {l : List Char}
    (h : ∀ c ∈ l, isPySpace c = false) : pyStrip l = l := by
  unfold pyStrip
  rw [dropWhile_eq_self_of_none h,
    dropWhile_eq_self_of_none (fun c hc => h c (List.mem_reverse.mp hc)),
    List.reverse_reverse]

theorem findSome?_first_iff {α β : Type} (f : α → Option β) :
    ∀ (l : List α) (b : β),
      l.findSome? f = some b ↔
        ∃ (i : Nat) (r : α), l[i]? = some r ∧ f r = some b ∧
          ∀ (j : Nat), j < i → ∀ (r' : α), l[j]? = some r' → f r' = none := by
  intro l
  induction l with
  | nil =>
    intro b
    simp [List.findSome?]
  | cons a t ih =>
    intro b
    cases hfa : f a with
    | some b' =>
      simp only [List.findSome?_cons, hfa]
      constructor
      · intro h
        injection h with h
        subst h
        exact ⟨0, a, by simp, hfa, fun j hj => by omega⟩
      · rintro ⟨i, r, hget, hfr, hprev⟩
        cases i with
        | zero =>
          rw [List.getElem?_cons_zero] at hget
          injection hget with hget
          subst hget
          rw [hfa] at hfr
          exact hfr
        | succ i' =>
          have h0 := hprev 0 (by omega) a (by rw [List.getElem?_cons_zero])
          rw [hfa] at h0
          exact absurd h0 (by simp)
    | none =>
      simp only [List.findSome?_cons, hfa]
      rw [ih b]
      constructor
      · rintro ⟨i, r, hget, hfr, hprev⟩
        refine ⟨i + 1, r, ?_, hfr, ?_⟩
        · simpa using hget
        · intro j hj r' hget'
          cases j with
          | zero =>
            rw [List.getElem?_cons_zero] at hget'
            injection hget' with hget'
            subst hget'
            exact hfa
          | succ j' =>
            exact hprev j' (by omega) r' (by simpa using hget')
      · rintro ⟨i, r, hget, hfr, hprev⟩
        cases i with
        | zero =>
          rw [List.getElem?_cons_zero] at hget
          injection hget with hget
          subst hget
          rw [hfa] at hfr
          exact absurd hfr (by simp)
        | succ i' =>
          refine ⟨i', r, by simpa using hget, hfr, ?_⟩
          intro j hj r' hget'
          exact hprev (j + 1) (by omega) r' (by simpa using hget')

theorem findSome?_exists {α β : Type} {f : α → Option β} {l : List α}
    {b : β} (h : l.findSome? f = some b) : ∃ a ∈ l, f a = some b := by
  induction l with
  | nil => exact absurd h (by simp [List.findSome?])
  | cons a t ih =>
    rw [List.findSome?_cons] at h
    cases hfa : f a with
    | some b' =>
      rw [hfa] at h
      injection h with h
      subst h
      exact ⟨a, List.mem_cons_self a t, hfa⟩
    | none =>
      rw [hfa] at h
      obtain ⟨x, hx, hfx⟩ := ih h
      exact ⟨x, List.mem_cons_of_mem a hx, hfx⟩

theorem lookup_exists_entry {α β : Type} [BEq α] :
    ∀ {l : List (α × β)} {k : α} {v : β}, l.lookup k = some v →
      ∃ p ∈ l, p.2 = v := by
  intro l
  induction l with
  | nil => intro k v h; exact absurd h (by simp [List.lookup])
  | cons a t ih =>
    intro k v h
    rw [List.lookup] at h
    by_cases hk : (k == a.1) = true
    · simp only [hk] at h
      injection h with h
      exact ⟨a, List.mem_cons_self a t, h⟩
    · rw [Bool.not_eq_true] at hk
      simp only [hk] at h
      obtain ⟨p, hp, hv⟩ := ih h
      exact ⟨p, List.mem_cons_of_mem a hp, hv⟩

theorem month_map_range {s : String} {m : Nat}
    (h : MONTH_MAP.lookup s = some m) : 1 ≤ m ∧ m ≤ 12 := by
  obtain ⟨p, hp, hv⟩ := lookup_exists_entry h
  have : ∀ q ∈ MONTH_MAP, 1 ≤ q.2 ∧ q.2 ≤ 12 := by decide
  rw [← hv]
  exact this p hp

theorem lookupMonth_range {mg : List Char} {m : Nat}
    (h : lookupMonth mg = some m) : 1 ≤ m ∧ m ≤ 12 :=
  month_map_range h

/-! ### Rule matching: evaluation and inversion lemmas -/

theorem ruleMatch_nosep_inv {r : Rule} (hsep : r.separator = none)
    {s mg yg : List Char} (h : ruleMatch r s = some (mg, yg)) :
    s = mg ++ yg ∧ mg.length = 2 ∧ yg.length = r.year_length ∧
      (∀ c ∈ mg, isPyDigit c = true) ∧ (∀ c ∈ yg, isPyDigit c = true) := by
  simp only [ruleMatch, hsep] at h
  by_cases hc : s.length = 2 + r.year_length ∧ s.all isPyDigit
  · rw [if_pos hc] at h
    injection h with h
    injection h with h1 h2
    subst h1; subst h2
    obtain ⟨hl, hall⟩ := hc
    rw [List.all_eq_true] at hall
    refine ⟨(List.take_append_drop 2 s).symm, ?_, ?_, ?_, ?_⟩
    · rw [List.length_take]; omega
    · rw [List.length_drop]; omega
    · intro c hcm; exact hall c (List.mem_of_mem_take hcm)
    · intro c hcm; exact hall c (List.mem_of_mem_drop hcm)
  · rw [if_neg hc] at h
    exact Option.noConfusion h

theorem ruleMatch_text_inv {r : Rule} {sep : Char}
    (hsep : r.separator = some sep) (htype : r.month_type = MonthType.text)
    {s mg yg : List Char} (h : ruleMatch r s = some (mg, yg)) :
    s = mg ++ sep :: yg ∧ sep ∉ mg ∧ mg ≠ [] ∧
      (∀ c ∈ mg, isAsciiLetter c = true) ∧ yg.length = r.year_length ∧
      (∀ c ∈ yg, isPyDigit c = true) := by
  simp only [ruleMatch, hsep] at h
  rcases hsp : splitOnceChar sep s with _ | ⟨a, b⟩
  · simp only [hsp] at h
    exact Option.noConfusion h
  · simp only [hsp, htype] at h
    by_cases hc : a ≠ [] ∧ a.all isAsciiLetter ∧ b.length = r.year_length ∧
        b.all isPyDigit
    · rw [if_pos hc] at h
      injection h with h
      injection h with h1 h2
      subst h1; subst h2
      obtain ⟨he, hnm⟩ := splitOnceChar_inv hsp
      obtain ⟨hne, hlet, hlen, hdig⟩ := hc
      rw [List.all_eq_true] at hlet hdig
      exact ⟨he, hnm, hne, hlet, hlen, hdig⟩
    · rw [if_neg hc] at h
      exact Option.noConfusion h

theorem ruleMatch_numMF_inv {r : Rule} {sep : Char}
    (hsep : r.separator = some sep) (htype : r.month_type = MonthType.numeric)
    (hmf : r.month_first = true) {s mg yg : List Char}
    (h : ruleMatch r s = some (mg, yg)) :
    s = mg ++ sep :: yg ∧ sep ∉ mg ∧ 1 ≤ mg.length ∧ mg.length ≤ 2 ∧
      (∀ c ∈ mg, isPyDigit c = true) ∧ yg.length = r.year_length ∧
      (∀ c ∈ yg, isPyDigit c = true) := by
  simp only [ruleMatch, hsep] at h
  rcases hsp : splitOnceChar sep s with _ | ⟨a, b⟩
  · simp only [hsp] at h
    exact Option.noConfusion h
  · simp only [hsp, htype, hmf] at h
    by_cases hc : 1 ≤ a.length ∧ a.length ≤ 2 ∧ a.all isPyDigit ∧
        b.length = r.year_length ∧ b.all isPyDigit
    · rw [if_pos hc] at h
      injection h with h
      injection h with h1 h2
      subst h1; subst h2
      obtain ⟨he, hnm⟩ := splitOnceChar_inv hsp
      obtain ⟨h1, h2, h3, h4, h5⟩ := hc
      rw [List.all_eq_true] at h3 h5
      exact ⟨he, hnm, h1, h2, h3, h4, h5⟩
    · rw [if_neg hc] at h
      exact Option.noConfusion h

theorem ruleMatch_numYF_inv {r : Rule} {sep : Char}
    (hsep : r.separator = some sep) (htype : r.month_type = MonthType.numeric)
    (hmf : r.month_first = false) {s mg yg : List Char}
    (h : ruleMatch r s = some (mg, yg)) :
    s = yg ++ sep :: mg ∧ sep ∉ yg ∧ 1 ≤ mg.length ∧ mg.length ≤ 2 ∧
      (∀ c ∈ mg, isPyDigit c = true) ∧ yg.length = 4 ∧
      (∀ c ∈ yg, isPyDigit c = true) := by
  simp only [ruleMatch, hsep] at h
  rcases hsp : splitOnceChar sep s with _ | ⟨a, b⟩
  · simp only [hsp] at h
    exact Option.noConfusion h
  · simp only [hsp, htype, hmf] at h
    by_cases hc : a.length = 4 ∧ a.all isPyDigit ∧ 1 ≤ b.length ∧
        b.length ≤ 2 ∧ b.all isPyDigit
    · rw [if_pos hc] at h
      injection h with h
      injection h with h1 h2
      subst h1; subst h2
      obtain ⟨he, hnm⟩ := splitOnceChar_inv hsp
      obtain ⟨h1, h2, h3, h4, h5⟩ := hc
      rw [List.all_eq_true] at h2 h5
      exact ⟨he, hnm, h3, h4, h5, h1, h2⟩
    · rw [if_neg hc] at h
      exact Option.noConfusion h

theorem ruleMatch_none_of_sep_not_mem {r : Rule} {sep : Char}
    (hsep : r.separator = some sep) {s : List Char} (h : sep ∉ s) :
    ruleMatch r s = none := by
  simp only [ruleMatch, hsep, splitOnceChar_eq_none h]

theorem ruleMatch_nosep_none {r : Rule} (hsep : r.separator = none)
    {s : List Char}
    (h : ¬(s.length = 2 + r.year_length ∧ s.all isPyDigit)) :
    ruleMatch r s = none := by
  simp only [ruleMatch, hsep]
  rw [if_neg h]

theorem ruleMatch_nosep_some {r : Rule} (hsep : r.separator = none)
    {s : List Char} (h : s.length = 2 + r.year_length ∧ s.all isPyDigit) :
    ruleMatch r s = some (s.take 2, s.drop 2) := by
  simp only [ruleMatch, hsep]
  rw [if_pos h]

theorem ruleMatch_text_none {r : Rule} {sep : Char} {s a b : List Char}
    (hsep : r.separator = some sep) (htype : r.month_type = MonthType.text)
    (hsp : splitOnceChar sep s = some (a, b))
    (h : ¬(a ≠ [] ∧ a.all isAsciiLetter ∧ b.length = r.year_length ∧
      b.all isPyDigit)) :
    ruleMatch r s = none := by
  simp only [ruleMatch, hsep, hsp, htype]
  rw [if_neg h]

theorem ruleMatch_text_some {r : Rule} {sep : Char} {s a b : List Char}
    (hsep : r.separator = some sep) (htype : r.month_type = MonthType.text)
    (hsp : splitOnceChar sep s = some (a, b))
    (h : a ≠ [] ∧ a.all isAsciiLetter ∧ b.length = r.year_length ∧
      b.all isPyDigit) :
    ruleMatch r s = some (a, b) := by
  simp only [ruleMatch, hsep, hsp, htype]
  rw [if_pos h]

theorem ruleMatch_numMF_none {r : Rule} {sep : Char} {s a b : List Char}
    (hsep : r.separator = some sep) (htype : r.month_type = MonthType.numeric)
    (hmf : r.month_first = true) (hsp : splitOnceChar sep s = some (a, b))
    (h : ¬(1 ≤ a.length ∧ a.length ≤ 2 ∧ a.all isPyDigit ∧
      b.length = r.year_length ∧ b.all isPyDigit)) :
    ruleMatch r s = none := by
  simp only [ruleMatch, hsep, hsp, htype, hmf, if_true]
  rw [if_neg h]

theorem ruleMatch_numMF_some {r : Rule} {sep : Char} {s a b : List Char}
    (hsep : r.separator = some sep) (htype : r.month_type = MonthType.numeric)
    (hmf : r.month_first = true) (hsp : splitOnceChar sep s = some (a, b))
    (h : 1 ≤ a.length ∧ a.length ≤ 2 ∧ a.all isPyDigit ∧
      b.length = r.year_length ∧ b.all isPyDigit) :
    ruleMatch r s = some (a, b) := by
  simp only [ruleMatch, hsep, hsp, htype, hmf, if_true]
  rw [if_pos h]

theorem ruleMatch_numYF_none {r : Rule} {sep : Char} {s a b : List Char}
    (hsep : r.separator = some sep) (htype : r.month_type = MonthType.numeric)
    (hmf : r.month_first = false) (hsp : splitOnceChar sep s = some (a, b))
    (h : ¬(a.length = 4 ∧ a.all isPyDigit ∧ 1 ≤ b.length ∧ b.length ≤ 2 ∧
      b.all isPyDigit)) :
    ruleMatch r s = none := by
  simp only [ruleMatch, hsep, hsp, htype, hmf, Bool.false_eq_true, if_false]
  rw [if_neg h]

theorem ruleMatch_numYF_some {r : Rule} {sep : Char} {s a b : List Char}
    (hsep : r.separator = some sep) (htype : r.month_type = MonthType.numeric)
    (hmf : r.month_first = false) (hsp : splitOnceChar sep s = some (a, b))
    (h : a.length = 4 ∧ a.all isPyDigit ∧ 1 ≤ b.length ∧ b.length ≤ 2 ∧
      b.all isPyDigit) :
    ruleMatch r s = some (b, a) := by
  simp only [ruleMatch, hsep, hsp, htype, hmf, Bool.false_eq_true, if_false]
  rw [if_pos h]

/-! ### Match-plus-validation: evaluation lemmas -/

theorem matchValidate_none_of_ruleMatch {r : Rule} {s : List Char}
    (h : ruleMatch r s = none) : matchValidate r s = none := by
  simp only [matchValidate, h]

theorem matchValidate_text_some {r : Rule}
    (htype : r.month_type = MonthType.text) {s mg yg : List Char}
    (hm : ruleMatch r s = some (mg, yg)) (hne : mg ≠ []) {m : Nat}
    (hlk : lookupMonth mg = some m) :
    matchValidate r s = some ⟨r, m, some mg, parseDigits yg⟩ := by
  simp only [matchValidate, hm, htype]
  rw [if_neg hne]
  simp only [hlk]

theorem matchValidate_text_none {r : Rule}
    (htype : r.month_type = MonthType.text) {s mg yg : List Char}
    (hm : ruleMatch r s = some (mg, yg))
    (hlk : lookupMonth mg = none) :
    matchValidate r s = none := by
  simp only [matchValidate, hm, htype]
  by_cases hne : mg = []
  · rw [if_pos hne]
  · rw [if_neg hne]
    simp only [hlk]

theorem matchValidate_numeric_some {r : Rule}
    (htype : r.month_type = MonthType.numeric) {s mg yg : List Char}
    (hm : ruleMatch r s = some (mg, yg)) (hne : mg ≠ [])
    (hrange : 1 ≤ parseDigits mg ∧ parseDigits mg ≤ 12) :
    matchValidate r s = some ⟨r, parseDigits mg, none, parseDigits yg⟩ := by
  simp only [matchValidate, hm, htype]
  rw [if_neg hne, if_neg (by omega)]

theorem matchValidate_numeric_none {r : Rule}
    (htype : r.month_type = MonthType.numeric) {s mg yg : List Char}
    (hm : ruleMatch r s = some (mg, yg))
    (hrange : parseDigits mg < 1 ∨ parseDigits mg > 12) :
    matchValidate r s = none := by
  simp only [matchValidate, hm, htype]
  by_cases hne : mg = []
  · rw [if_pos hne]
  · rw [if_neg hne, if_pos hrange]

/-! ### Month re-capitalization lemmas -/

theorem capFirst_map_pyLower {t : List Char} :
    (capFirst t).map pyLower = t.map pyLower := by
  cases t with
  | nil => rfl
  | cons c cs =>
    show pyLower (pyUpper c) :: (cs.map pyLower).map pyLower =
      pyLower c :: cs.map pyLower
    rw [pyLower_pyUpper, List.map_map]
    congr 1
    exact List.map_congr_left (fun a _ => pyLower_pyLower a)

theorem lookupMonth_capFirst (t : List Char) :
    lookupMonth (capFirst t) = lookupMonth t := by
  unfold lookupMonth
  rw [capFirst_map_pyLower]

theorem capFirst_capFirst (t : List Char) :
    capFirst (capFirst t) = capFirst t := by
  cases t with
  | nil => rfl
  | cons c cs =>
    show pyUpper (pyUpper c) :: (cs.map pyLower).map pyLower =
      pyUpper c :: cs.map pyLower
    rw [pyUpper_pyUpper, List.map_map]
    congr 1
    exact List.map_congr_left (fun a _ => pyLower_pyLower a)

theorem capFirst_ne_nil {t : List Char} (h : t ≠ []) : capFirst t ≠ [] := by
  cases t with
  | nil => exact absurd rfl h
  | cons c cs => simp [capFirst]

theorem capFirst_letters {t : List Char}
    (h : ∀ c ∈ t, isAsciiLetter c = true) :
    ∀ c ∈ capFirst t, isAsciiLetter c = true := by
  cases t with
  | nil => intro c hc; exact absurd hc (by simp [capFirst])
  | cons a cs =>
    intro c hc
    rw [capFirst, List.mem_cons] at hc
    rcases hc with hc | hc
    · rw [hc]
      exact isAsciiLetter_pyUpper (h a (List.mem_cons_self a cs))
    · obtain ⟨d, hd, hdc⟩ := List.mem_map.mp hc
      rw [← hdc]
      exact isAsciiLetter_pyLower (h d (List.mem_cons_of_mem a hd))

/-! ### Parsed-value invariant and classification inversion -/

/-- Everything the matcher guarantees about a successful parse: the rule
is one of the 12, the month is validated, the year fits the rule's year
width, and the month text (when present) is a known month name. -/
def ParsedInv (p : Parsed) : Prop :=
  p.rule ∈ EXP_PATTERNS ∧ 1 ≤ p.month ∧ p.month ≤ 12 ∧
    p.year < 10 ^ p.rule.year_length ∧
    ((∃ t, p.month_text = some t ∧ p.rule.month_type = MonthType.text ∧
        t ≠ [] ∧ (∀ c ∈ t, isAsciiLetter c = true) ∧
        lookupMonth t = some p.month) ∨
      (p.month_text = none ∧ p.rule.month_type = MonthType.numeric))

theorem ruleMatch_year_group {r : Rule} (hr : r ∈ EXP_PATTERNS)
    {s mg yg : List Char} (h : ruleMatch r s = some (mg, yg)) :
    yg.length = r.year_length ∧ (∀ c ∈ yg, isPyDigit c = true) ∧ mg ≠ [] := by
  have hsep3 : r.separator = none ∨ r.separator = some '-' ∨
      r.separator = some '/' := by
    have hall : ∀ x ∈ EXP_PATTERNS, x.separator = none ∨
        x.separator = some '-' ∨ x.separator = some '/' := by decide
    exact hall r hr
  have hyl : r.month_first = false → r.year_length = 4 := by
    have hall : ∀ x ∈ EXP_PATTERNS,
        x.month_first = false → x.year_length = 4 := by decide
    exact hall r hr
  rcases hsep3 with hsep | hsep | hsep
  · obtain ⟨_, hmg2, hylen, _, hydig⟩ := ruleMatch_nosep_inv hsep h
    exact ⟨hylen, hydig, by intro hn; rw [hn] at hmg2; simp at hmg2⟩
  all_goals
    cases htype : r.month_type with
    | text =>
      obtain ⟨_, _, hne, _, hylen, hydig⟩ := ruleMatch_text_inv hsep htype h
      exact ⟨hylen, hydig, hne⟩
    | numeric =>
      cases hmf : r.month_first with
      | false =>
        obtain ⟨_, _, hm1, _, _, hylen4, hydig⟩ :=
          ruleMatch_numYF_inv hsep htype hmf h
        refine ⟨by rw [hylen4, hyl hmf], hydig, ?_⟩
        intro hn; rw [hn] at hm1; simp at hm1
      | true =>
        obtain ⟨_, _, hm1, _, _, hylen, hydig⟩ :=
          ruleMatch_numMF_inv hsep htype hmf h
        refine ⟨hylen, hydig, ?_⟩
        intro hn; rw [hn] at hm1; simp at hm1

theorem ruleMatch_text_month_group {r : Rule} (hr : r ∈ EXP_PATTERNS)
    (htype : r.month_type = MonthType.text) {s mg yg : List Char}
    (h : ruleMatch r s = some (mg, yg)) :
    mg ≠ [] ∧ (∀ c ∈ mg, isAsciiLetter c = true) := by
  have hsep2 : r.separator = some '-' ∨ r.separator = some '/' := by
    have hall : ∀ x ∈ EXP_PATTERNS, x.month_type = MonthType.text →
        (x.separator = some '-' ∨ x.separator = some '/') := by decide
    exact hall r hr htype
  rcases hsep2 with hsep | hsep <;>
  · obtain ⟨_, _, hne, hlet, _, _⟩ := ruleMatch_text_inv hsep htype h
    exact ⟨hne, hlet⟩

theorem matchValidate_inv {r : Rule} (hr : r ∈ EXP_PATTERNS)
    {s : List Char} {p : Parsed} (h : matchValidate r s = some p) :
    p.rule = r ∧ ParsedInv p := by
  unfold matchValidate at h
  rcases hm : ruleMatch r s with _ | ⟨mg, yg⟩
  · simp only [hm] at h
    exact Option.noConfusion h
  · simp only [hm] at h
    obtain ⟨hylen, hydig, hmgne⟩ := ruleMatch_year_group hr hm
    have hyear : parseDigits yg < 10 ^ r.year_length := by
      rw [← hylen]; exact parseDigits_lt yg hydig
    cases htype : r.month_type with
    | text =>
      simp only [htype] at h
      rw [if_neg hmgne] at h
      rcases hlk : lookupMonth mg with _ | m
      · simp only [hlk] at h
        exact Option.noConfusion h
      · simp only [hlk] at h
        injection h with h
        subst h
        obtain ⟨hmne2, hmlet⟩ := ruleMatch_text_month_group hr htype hm
        exact ⟨rfl, hr, (lookupMonth_range hlk).1, (lookupMonth_range hlk).2,
          hyear, Or.inl ⟨mg, rfl, htype, hmne2, hmlet, hlk⟩⟩
    | numeric =>
      simp only [htype] at h
      rw [if_neg hmgne] at h
      by_cases hrange : parseDigits mg < 1 ∨ parseDigits mg > 12
      · rw [if_pos hrange] at h
        exact Option.noConfusion h
      · rw [if_neg hrange] at h
        injection h with h
        subst h
        push_neg at hrange
        exact ⟨rfl, hr, hrange.1, hrange.2, hyear, Or.inr ⟨rfl, htype⟩⟩

theorem classify_some_inv {s : String} {p : Parsed}
    (h : classify s = some p) :
    ParsedInv p ∧ matchValidate p.rule (pyStrip s.data) = some p := by
  simp only [classify] at h
  by_cases hs : pyStrip s.data = []
  · rw [if_pos hs] at h
    exact Option.noConfusion h
  · rw [if_neg hs] at h
    obtain ⟨r, hrmem, hmv⟩ := findSome?_exists h
    obtain ⟨hrule, hinv⟩ := matchValidate_inv hrmem hmv
    exact ⟨hinv, by rw [hrule]; exact hmv⟩

theorem calculate_eq_of_classify {s : String} {p : Parsed}
    (h : classify s = some p) (k : Int) :
    calculate_new_expiry s k = some (String.mk (apply_offset p k)) := by
  unfold calculate_new_expiry
  rw [h]
  rfl

theorem calculate_some_inv {s : String} {k : Int} {y : String}
    (h : calculate_new_expiry s k = some y) :
    ∃ p, classify s = some p ∧ y = String.mk (apply_offset p k) := by
  unfold calculate_new_expiry at h
  rcases hc : classify s with _ | p
  · rw [hc] at h
    exact Option.noConfusion h
  · rw [hc] at h
    injection h with h
    exact ⟨p, rfl, h.symm⟩

/-! ### Formatting helper lemmas -/

theorem formatYear_two {r : Rule} (h2 : r.year_length = 2) (v : Int) :
    formatYear r v = pyFormat 2 (Int.emod v 100) := by
  unfold formatYear
  rw [if_pos h2]

theorem formatYear_four {r : Rule} (h4 : r.year_length = 4) (v : Int) :
    formatYear r v = pyFormat 4 v := by
  unfold formatYear
  rw [h4, if_neg (by omega)]

theorem emod100_nonneg (v : Int) : 0 ≤ Int.emod v 100 :=
  Int.emod_nonneg v (by norm_num)

theorem emod100_lt (v : Int) : Int.emod v 100 < 100 :=
  Int.emod_lt_of_pos v (by norm_num)

theorem pyFormat_two_emod_length (v : Int) :
    (pyFormat 2 (Int.emod v 100)).length = 2 := by
  apply pyFormat_length 2 (emod100_nonneg v) (by omega)
  have := emod100_lt v
  norm_num
  omega

theorem formatMonth_of_text {p : Parsed} {t : List Char}
    (h : p.month_text = some t) : formatMonth p = capFirst t := by
  unfold formatMonth
  rw [h]

theorem formatMonth_of_numeric {p : Parsed} (h : p.month_text = none) :
    formatMonth p = pyFormat 2 (p.month : Int) := by
  unfold formatMonth
  rw [h]

/-! ### The claims -/

/-- Claim C1: for every input string that matches a rule whose year width
is 2 digits and every integer offset, the output year field is
(matched year + offset) reduced modulo 100 and zero-padded to exactly 2
digits; in particular the transform of "Dec-99" with offset +3 yields
"Dec-02". -/
theorem claim_C1 :
    (∀ (s : String) (k : Int) (p : Parsed), classify s = some p →
      p.rule.year_length = 2 →
      ∃ fm, calculate_new_expiry s k =
          some (String.mk (assemble p.rule fm
            (pyFormat 2 (Int.emod ((p.year : Int) + k) 100)))) ∧
        (pyFormat 2 (Int.emod ((p.year : Int) + k) 100)).length = 2) ∧
    calculate_new_expiry "Dec-99" 3 = some "Dec-02" := by
  constructor
  · intro s k p hc h2
    refine ⟨formatMonth p, ?_, pyFormat_two_emod_length _⟩
    rw [calculate_eq_of_classify hc k]
    unfold apply_offset
    rw [formatYear_two h2]
  · decide

theorem claim_C1_witness :
    (∃ fm, calculate_new_expiry "Dec-99" 3 =
        some (String.mk (assemble (⟨2, some '-', true, MonthType.text⟩ : Rule)
          fm (pyFormat 2 (Int.emod ((99 : Int) + 3) 100)))) ∧
      (pyFormat 2 (Int.emod ((99 : Int) + 3) 100)).length = 2) :=
  claim_C1.1 "Dec-99" 3
    ⟨⟨2, some '-', true, MonthType.text⟩, 12, some ("Dec".data), 99⟩
    (by decide) rfl

/-- Claim C5: for every input string matching a rule whose year width is 4
digits and every integer offset, the output year field is
(matched year + offset) rendered by the 4-digit zero-padding format (no
modulo wraparound); in particular "August-2029" with +3 yields
"August-2032". -/
theorem claim_C5 :
    (∀ (s : String) (k : Int) (p : Parsed), classify s = some p →
      p.rule.year_length = 4 →
      ∃ fm, calculate_new_expiry s k =
        some (String.mk (assemble p.rule fm
          (pyFormat 4 ((p.year : Int) + k))))) ∧
    calculate_new_expiry "August-2029" 3 = some "August-2032" := by
  constructor
  · intro s k p hc h4
    refine ⟨formatMonth p, ?_⟩
    rw [calculate_eq_of_classify hc k]
    unfold apply_offset
    rw [formatYear_four h4]
  · decide

theorem claim_C5_witness :
    ∃ fm, calculate_new_expiry "August-2029" 3 =
      some (String.mk (assemble (⟨4, some '-', true, MonthType.text⟩ : Rule)
        fm (pyFormat 4 ((2029 : Int) + 3)))) :=
  claim_C5.1 "August-2029" 3
    ⟨⟨4, some '-', true, MonthType.text⟩, 8, some ("August".data), 2029⟩
    (by decide) rfl

/-- Claim C9: the normalizer itself never rejects an offset: whether the
result is `some` depends only on the classification of the input, and on
any matched input every integer offset (zero and negative included)
produces the reassembled string for year + offset. -/
theorem claim_C9 :
    (∀ (s : String) (k : Int),
      (calculate_new_expiry s k).isSome = (classify s).isSome) ∧
    (∀ (s : String) (k : Int) (p : Parsed), classify s = some p →
      calculate_new_expiry s k = some (String.mk (apply_offset p k))) ∧
    calculate_new_expiry "Aug-29" 0 = some "Aug-29" ∧
    calculate_new_expiry "Aug-29" (-3) = some "Aug-26" := by
  refine ⟨?_, ?_, by decide, by decide⟩
  · intro s k
    unfold calculate_new_expiry
    cases h : classify s <;> rfl
  · intro s k p hc
    exact calculate_eq_of_classify hc k

theorem claim_C9_witness :
    calculate_new_expiry "Aug-29" (-7) =
      some (String.mk (apply_offset
        ⟨⟨2, some '-', true, MonthType.text⟩, 8, some ("Aug".data), 29⟩
        (-7))) :=
  claim_C9.2.1 "Aug-29" (-7)
    ⟨⟨2, some '-', true, MonthType.text⟩, 8, some ("Aug".data), 29⟩
    (by decide)

/-- Claim C2, counterexample: the output does not always differ from the
input only in the year value.  With offset 0 the year is unchanged, yet
"1/25" is re-rendered as "01/25" (month field re-padded) and "AUGUST/29"
as "August/29" (month re-capitalized), so the output differs from the
input in the month field. -/
theorem claim_C2_counterexample :
    calculate_new_expiry "1/25" 0 = some "01/25" ∧
    ("01/25" : String) ≠ "1/25" ∧
    calculate_new_expiry "AUGUST/29" 0 = some "August/29" ∧
    ("August/29" : String) ≠ "AUGUST/29" := by decide

/-- Claim C2 (amended): the output mirrors the shape of the *matched
rule* — its separator, field order and year digit width — rather than the
input string verbatim: the month value is preserved but re-rendered
canonically (numeric months zero-padded to exactly 2 digits, textual
months re-capitalized), and the year is the only value that changes. -/
theorem claim_C2_amended :
    (∀ (s : String) (k : Int) (p : Parsed), classify s = some p →
      calculate_new_expiry s k = some (String.mk (assemble p.rule
        (formatMonth p) (formatYear p.rule ((p.year : Int) + k)))) ∧
      (p.rule.year_length = 2 →
        (formatYear p.rule ((p.year : Int) + k)).length = 2) ∧
      (p.rule.month_type = MonthType.numeric →
        formatMonth p = pyFormat 2 (p.month : Int) ∧
        (formatMonth p).length = 2) ∧
      (p.rule.month_type = MonthType.text →
        ∃ t, p.month_text = some t ∧ formatMonth p = capFirst t)) ∧
    calculate_new_expiry "1/25" 3 = some "01/28" ∧
    calculate_new_expiry "AUGUST/29" 3 = some "August/32" := by
  refine ⟨?_, by decide, by decide⟩
  intro s k p hc
  obtain ⟨hinv, -⟩ := classify_some_inv hc
  obtain ⟨-, hm1, hm12, -, hdisj⟩ := hinv
  refine ⟨?_, ?_, ?_, ?_⟩
  · rw [calculate_eq_of_classify hc k]
    rfl
  · intro h2
    rw [formatYear_two h2]
    exact pyFormat_two_emod_length _
  · intro htype
    rcases hdisj with ⟨t, -, htext, -⟩ | ⟨hnone, -⟩
    · rw [htext] at htype
      exact absurd htype (by simp)
    · rw [formatMonth_of_numeric hnone]
      refine ⟨rfl, ?_⟩
      apply pyFormat_length 2 (by omega) (by omega)
      norm_num
      omega
  · intro htype
    rcases hdisj with ⟨t, hmt, -, -⟩ | ⟨-, hnum⟩
    · exact ⟨t, hmt, formatMonth_of_text hmt⟩
    · rw [hnum] at htype
      exact absurd htype (by simp)

theorem claim_C2_amended_witness :
    calculate_new_expiry "1/25" 7 =
      some (String.mk (assemble
        (⟨2, some '/', true, MonthType.numeric⟩ : Rule)
        (formatMonth ⟨⟨2, some '/', true, MonthType.numeric⟩, 1, none, 25⟩)
        (formatYear (⟨2, some '/', true, MonthType.numeric⟩ : Rule)
          ((25 : Int) + 7)))) :=
  (claim_C2_amended.1 "1/25" 7
    ⟨⟨2, some '/', true, MonthType.numeric⟩, 1, none, 25⟩ (by decide)).1

/-- Claim C4: the month value is preserved and re-rendered canonically:
textual months are re-capitalized to first-letter-upper rest-lower
regardless of input capitalization (and still denote the same month);
numeric months are zero-padded to 2 digits.  In particular "AUGUST/29"
re-renders its month as "August" and "Aug-29" with +3 yields "Aug-32". -/
theorem claim_C4 :
    (∀ (s : String) (k : Int) (p : Parsed) (t : List Char),
      classify s = some p → p.month_text = some t →
      (∃ fy, calculate_new_expiry s k =
        some (String.mk (assemble p.rule (capFirst t) fy))) ∧
      lookupMonth (capFirst t) = some p.month ∧
      (∀ c cs, t = c :: cs → capFirst t = pyUpper c :: cs.map pyLower)) ∧
    (∀ (s : String) (k : Int) (p : Parsed),
      classify s = some p → p.month_text = none →
      ∃ fy, calculate_new_expiry s k =
        some (String.mk (assemble p.rule (pyFormat 2 (p.month : Int)) fy))) ∧
    calculate_new_expiry "AUGUST/29" 0 = some "August/29" ∧
    calculate_new_expiry "Aug-29" 3 = some "Aug-32" := by
  refine ⟨?_, ?_, by decide, by decide⟩
  · intro s k p t hc hmt
    obtain ⟨hinv, -⟩ := classify_some_inv hc
    obtain ⟨-, -, -, -, hdisj⟩ := hinv
    refine ⟨⟨formatYear p.rule ((p.year : Int) + k), ?_⟩, ?_, ?_⟩
    · rw [calculate_eq_of_classify hc k]
      unfold apply_offset
      rw [formatMonth_of_text hmt]
    · rcases hdisj with ⟨t', hmt', -, -, -, hlk⟩ | ⟨hnone, -⟩
      · rw [hmt] at hmt'
        injection hmt' with hmt'
        rw [lookupMonth_capFirst, hmt']
        exact hlk
      · rw [hmt] at hnone
        exact Option.noConfusion hnone
    · intro c cs hts
      rw [hts]
      rfl
  · intro s k p hc hmt
    refine ⟨formatYear p.rule ((p.year : Int) + k), ?_⟩
    rw [calculate_eq_of_classify hc k]
    unfold apply_offset
    rw [formatMonth_of_numeric hmt]

theorem claim_C4_witness :
    ((∃ fy, calculate_new_expiry "AUGUST/29" 0 =
        some (String.mk (assemble
          (⟨2, some '/', true, MonthType.text⟩ : Rule)
          (capFirst ("AUGUST".data)) fy))) ∧
      lookupMonth (capFirst ("AUGUST".data)) = some 8 ∧
      (∀ c cs, "AUGUST".data = c :: cs →
        capFirst ("AUGUST".data) = pyUpper c :: cs.map pyLower)) :=
  claim_C4.1 "AUGUST/29" 0
    ⟨⟨2, some '/', true, MonthType.text⟩, 8, some ("AUGUST".data), 29⟩
    ("AUGUST".data) (by decide) rfl

/-- Claim C6: a rule whose pattern matches syntactically but whose numeric
month is outside [1,12] is treated as a non-match (the loop continues);
in particular "13/25" is rejected by every rule even though it fits the
MM/YY shape syntactically. -/
theorem claim_C6 :
    (∀ (r : Rule) (s mg yg : List Char),
      r.month_type = MonthType.numeric → ruleMatch r s = some (mg, yg) →
      (parseDigits mg < 1 ∨ parseDigits mg > 12) →
      matchValidate r s = none) ∧
    (∀ k : Int, calculate_new_expiry "13/25" k = none) ∧
    ruleMatch ⟨2, some '/', true, MonthType.numeric⟩ ("13/25".data) =
      some ("13".data, "25".data) := by
  refine ⟨?_, ?_, by decide⟩
  · intro r s mg yg htype hm hrange
    exact matchValidate_numeric_none htype hm hrange
  · intro k
    have h : classify "13/25" = none := by decide
    unfold calculate_new_expiry
    rw [h]
    rfl

theorem claim_C6_witness :
    matchValidate ⟨2, some '/', true, MonthType.numeric⟩ ("13/25".data) =
      none :=
  claim_C6.1 ⟨2, some '/', true, MonthType.numeric⟩ ("13/25".data)
    ("13".data) ("25".data) rfl (by decide) (by decide)

/-- Claim C7: empty input, whitespace-only input, and input matching no
rule (including a letters-then-year shape whose month name is not in the
month table) all yield NoMatch (`none`), never an error. -/
theorem claim_C7 :
    (∀ s : String, pyStrip s.data = [] → ∀ k : Int,
      calculate_new_expiry s k = none) ∧
    (∀ (r : Rule) (s mg yg : List Char), r.month_type = MonthType.text →
      ruleMatch r s = some (mg, yg) → lookupMonth mg = none →
      matchValidate r s = none) ∧
    (∀ k : Int, calculate_new_expiry "" k = none) ∧
    (∀ k : Int, calculate_new_expiry "   " k = none) ∧
    (∀ k : Int, calculate_new_expiry "Xyz-29" k = none) ∧
    (∀ k : Int, calculate_new_expiry "not-a-date" k = none) := by
  refine ⟨?_, ?_, ?_, ?_, ?_, ?_⟩
  · intro s hs k
    have hcl : classify s = none := by
      simp only [classify]
      rw [if_pos hs]
    unfold calculate_new_expiry
    rw [hcl]
    rfl
  · exact fun r s mg yg ht hm hlk => matchValidate_text_none ht hm hlk
  · intro k
    have h : classify "" = none := by decide
    unfold calculate_new_expiry
    rw [h]
    rfl
  · intro k
    have h : classify "   " = none := by decide
    unfold calculate_new_expiry
    rw [h]
    rfl
  · intro k
    have h : classify "Xyz-29" = none := by decide
    unfold calculate_new_expiry
    rw [h]
    rfl
  · intro k
    have h : classify "not-a-date" = none := by decide
    unfold calculate_new_expiry
    rw [h]
    rfl

theorem claim_C7_witness :
    calculate_new_expiry " " 5 = none :=
  claim_C7.1 " " (by decide) 5

/-- Claim C10: the normalizer is total: it always returns `none` or a
string, and the partial operations inside are guarded — every matched
year group is a non-empty digit string (so `int()` succeeds), every
numeric month group is a non-empty digit string, and every textual month
group is non-empty (so indexing its first character is safe). -/
theorem claim_C10 :
    (∀ (r : Rule) (s mg yg : List Char), r ∈ EXP_PATTERNS →
      ruleMatch r s = some (mg, yg) →
      mg ≠ [] ∧ yg ≠ [] ∧ (∀ c ∈ yg, isPyDigit c = true) ∧
      (r.month_type = MonthType.numeric →
        ∀ c ∈ mg, isPyDigit c = true) ∧
      (r.month_type = MonthType.text →
        ∀ c ∈ mg, isAsciiLetter c = true)) ∧
    (∀ (s : String) (k : Int), calculate_new_expiry s k = none ∨
      ∃ out, calculate_new_expiry s k = some out) := by
  constructor
  · intro r s mg yg hr hm
    obtain ⟨hylen, hydig, hmgne⟩ := ruleMatch_year_group hr hm
    have hy1 : 1 ≤ r.year_length := by
      have hall : ∀ x ∈ EXP_PATTERNS, 1 ≤ x.year_length := by decide
      exact hall r hr
    refine ⟨hmgne, ?_, hydig, ?_, ?_⟩
    · intro hn
      rw [hn] at hylen
      simp at hylen
      omega
    · intro htype
      have hsep3 : r.separator = none ∨ r.separator = some '-' ∨
          r.separator = some '/' := by
        have hall : ∀ x ∈ EXP_PATTERNS, x.separator = none ∨
            x.separator = some '-' ∨ x.separator = some '/' := by decide
        exact hall r hr
      rcases hsep3 with hsep | hsep | hsep
      · obtain ⟨-, -, -, hmdig, -⟩ := ruleMatch_nosep_inv hsep hm
        exact hmdig
      all_goals
        cases hmf : r.month_first with
        | false =>
          obtain ⟨-, -, -, -, hmdig, -, -⟩ :=
            ruleMatch_numYF_inv hsep htype hmf hm
          exact hmdig
        | true =>
          obtain ⟨-, -, -, -, hmdig, -, -⟩ :=
            ruleMatch_numMF_inv hsep htype hmf hm
          exact hmdig
    · intro htype
      exact (ruleMatch_text_month_group hr htype hm).2
  · intro s k
    cases h : calculate_new_expiry s k with
    | none => exact Or.inl rfl
    | some out => exact Or.inr ⟨out, rfl⟩

theorem claim_C10_witness :
    ("Aug".data ≠ [] ∧ "29".data ≠ [] ∧
      (∀ c ∈ "29".data, isPyDigit c = true) ∧
      ((⟨2, some '-', true, MonthType.text⟩ : Rule).month_type =
          MonthType.numeric → ∀ c ∈ "Aug".data, isPyDigit c = true) ∧
      ((⟨2, some '-', true, MonthType.text⟩ : Rule).month_type =
          MonthType.text → ∀ c ∈ "Aug".data, isAsciiLetter c = true)) :=
  claim_C10.1 ⟨2, some '-', true, MonthType.text⟩ ("Aug-29".data)
    ("Aug".data) ("29".data) (by decide) (by decide)

/-- Claim C3: the matcher tries the 12 rules in the fixed source order,
and a classification succeeds exactly when some rule at index `i` matches
structurally and passes month validation while every earlier rule fails;
the four textual-month rules occupy indices 0-3, ahead of all numeric
rules, and the rule list is exactly the ordered list of section 6 of the
specification. -/
theorem claim_C3 :
    (∀ (s : String) (p : Parsed),
      classify s = some p ↔
        (pyStrip s.data ≠ [] ∧
          ∃ (i : Nat) (r : Rule), EXP_PATTERNS[i]? = some r ∧
            matchValidate r (pyStrip s.data) = some p ∧
            ∀ (j : Nat), j < i → ∀ (r' : Rule), EXP_PATTERNS[j]? = some r' →
              matchValidate r' (pyStrip s.data) = none)) ∧
    EXP_PATTERNS =
      [⟨2, some '-', true, MonthType.text⟩,
       ⟨4, some '-', true, MonthType.text⟩,
       ⟨2, some '/', true, MonthType.text⟩,
       ⟨4, some '/', true, MonthType.text⟩,
       ⟨2, some '/', true, MonthType.numeric⟩,
       ⟨2, some '-', true, MonthType.numeric⟩,
       ⟨4, some '/', true, MonthType.numeric⟩,
       ⟨4, some '-', true, MonthType.numeric⟩,
       ⟨4, some '/', false, MonthType.numeric⟩,
       ⟨4, some '-', false, MonthType.numeric⟩,
       ⟨2, none, true, MonthType.numeric⟩,
       ⟨4, none, true, MonthType.numeric⟩] ∧
    (∀ i : Nat, i < 4 → ∀ r : Rule, EXP_PATTERNS[i]? = some r →
      r.month_type = MonthType.text) ∧
    (∀ i : Nat, 4 ≤ i → ∀ r : Rule, EXP_PATTERNS[i]? = some r →
      r.month_type = MonthType.numeric) := by
  refine ⟨?_, rfl, ?_, ?_⟩
  · intro s p
    simp only [classify]
    by_cases hs : pyStrip s.data = []
    · rw [if_pos hs]
      constructor
      · intro h
        exact Option.noConfusion h
      · rintro ⟨hne, -⟩
        exact absurd hs hne
    · rw [if_neg hs]
      rw [findSome?_first_iff (fun r => matchValidate r (pyStrip s.data))
        EXP_PATTERNS p]
      constructor
      · rintro ⟨i, r, h1, h2, h3⟩
        exact ⟨hs, i, r, h1, h2, h3⟩
      · rintro ⟨-, i, r, h1, h2, h3⟩
        exact ⟨i, r, h1, h2, h3⟩
  · intro i hi r hr
    interval_cases i <;> (simp [EXP_PATTERNS] at hr; rw [← hr])
  · intro i hi r hr
    have hlt : i < 12 := by
      by_contra hge
      have hnone : EXP_PATTERNS[i]? = none := by
        apply List.getElem?_eq_none
        simp [EXP_PATTERNS]
        omega
      rw [hnone] at hr
      exact Option.noConfusion hr
    interval_cases i <;> (simp [EXP_PATTERNS] at hr; rw [← hr])

theorem claim_C3_witness :
    pyStrip ("Aug-29" : String).data ≠ [] ∧
      ∃ (i : Nat) (r : Rule), EXP_PATTERNS[i]? = some r ∧
        matchValidate r (pyStrip ("Aug-29" : String).data) =
          some ⟨⟨2, some '-', true, MonthType.text⟩, 8,
            some ("Aug".data), 29⟩ ∧
        ∀ (j : Nat), j < i → ∀ (r' : Rule), EXP_PATTERNS[j]? = some r' →
          matchValidate r' (pyStrip ("Aug-29" : String).data) = none :=
  (claim_C3.1 "Aug-29"
    ⟨⟨2, some '-', true, MonthType.text⟩, 8, some ("Aug".data), 29⟩).mp
    (by decide)

/-! ### Output re-classification helpers (for the idempotence claim) -/

theorem mv_none_sep {r : Rule} {sep : Char} (hsep : r.separator = some sep)
    {y : List Char} (h : sep ∉ y) : matchValidate r y = none :=
  matchValidate_none_of_ruleMatch (ruleMatch_none_of_sep_not_mem hsep h)

theorem all_isAsciiLetter_false_of_head_digit {a : List Char} (hne : a ≠ [])
    (hd : ∀ c ∈ a, isPyDigit c = true) : a.all isAsciiLetter = false := by
  cases a with
  | nil => exact absurd rfl hne
  | cons c cs =>
    rw [Bool.eq_false_iff]
    intro hall
    rw [List.all_eq_true] at hall
    have h1 := hall c (List.mem_cons_self c cs)
    have h2 := hd c (List.mem_cons_self c cs)
    rw [not_digit_of_letter h1] at h2
    exact Bool.noConfusion h2

theorem all_isPyDigit_false_of_mem {l : List Char} {c : Char} (hc : c ∈ l)
    (hd : isPyDigit c = false) : l.all isPyDigit = false := by
  rw [Bool.eq_false_iff]
  intro hall
  rw [List.all_eq_true] at hall
  rw [hall c hc] at hd
  exact Bool.noConfusion hd

theorem not_mem_parts {c : Char} {a b : List Char} {sep : Char}
    (ha : ∀ x ∈ a, x ≠ c) (hs : sep ≠ c) (hb : ∀ x ∈ b, x ≠ c) :
    c ∉ a ++ sep :: b := by
  intro hmem
  rcases List.mem_append.mp hmem with h | h
  · exact ha c h rfl
  · rcases List.mem_cons.mp h with h | h
    · exact hs h.symm
    · exact hb c h rfl

theorem not_mem_two_parts {c : Char} {a b : List Char}
    (ha : ∀ x ∈ a, x ≠ c) (hb : ∀ x ∈ b, x ≠ c) : c ∉ a ++ b := by
  intro hmem
  rcases List.mem_append.mp hmem with h | h
  · exact ha c h rfl
  · exact hb c h rfl

theorem nospace_parts {a b : List Char} {sep : Char}
    (ha : ∀ x ∈ a, isPySpace x = false) (hs : isPySpace sep = false)
    (hb : ∀ x ∈ b, isPySpace x = false) :
    ∀ x ∈ a ++ sep :: b, isPySpace x = false := by
  intro x hmem
  rcases List.mem_append.mp hmem with h | h
  · exact ha x h
  · rcases List.mem_cons.mp h with h | h
    · rw [h]; exact hs
    · exact hb x h

theorem nospace_two_parts {a b : List Char}
    (ha : ∀ x ∈ a, isPySpace x = false)
    (hb : ∀ x ∈ b, isPySpace x = false) :
    ∀ x ∈ a ++ b, isPySpace x = false := by
  intro x hmem
  rcases List.mem_append.mp hmem with h | h
  · exact ha x h
  · exact hb x h

theorem append_cons_ne_nil (a : List Char) (sep : Char) (b : List Char) :
    a ++ sep :: b ≠ [] := by simp

theorem classify_mk {y : List Char}
    (hns : ∀ x ∈ y, isPySpace x = false) (hne : y ≠ []) :
    classify (String.mk y) =
      EXP_PATTERNS.findSome? (fun r => matchValidate r y) := by
  simp only [classify]
  rw [pyStrip_eq_self hns, if_neg hne]

theorem reclassify_textDash2 {t FY : List Char} (htne : t ≠ [])
    (htlet : ∀ c ∈ t, isAsciiLetter c = true) {m : Nat}
    (hlk : lookupMonth t = some m)
    (hFYlen : FY.length = 2) (hFYd : ∀ c ∈ FY, isPyDigit c = true) :
    classify (String.mk (capFirst t ++ '-' :: FY)) =
      some ⟨⟨2, some '-', true, MonthType.text⟩, m, some (capFirst t),
        parseDigits FY⟩ := by
  have hFMne : capFirst t ≠ [] := capFirst_ne_nil htne
  have hFMlet : ∀ c ∈ capFirst t, isAsciiLetter c = true :=
    capFirst_letters htlet
  have hns : ∀ x ∈ capFirst t ++ '-' :: FY, isPySpace x = false :=
    nospace_parts (fun x hx => not_space_of_letter (hFMlet x hx))
      (by decide) (fun x hx => not_space_of_digit (hFYd x hx))
  have hsp : splitOnceChar '-' (capFirst t ++ '-' :: FY) =
      some (capFirst t, FY) :=
    splitOnceChar_append FY
      (fun hmem => absurd rfl (ne_dash_of_letter (hFMlet _ hmem)))
  have hmatch : ruleMatch ⟨2, some '-', true, MonthType.text⟩
      (capFirst t ++ '-' :: FY) = some (capFirst t, FY) :=
    ruleMatch_text_some rfl rfl hsp
      ⟨hFMne, List.all_eq_true.mpr hFMlet, hFYlen,
        List.all_eq_true.mpr hFYd⟩
  have hsucc : matchValidate ⟨2, some '-', true, MonthType.text⟩
      (capFirst t ++ '-' :: FY) =
      some ⟨⟨2, some '-', true, MonthType.text⟩, m, some (capFirst t),
        parseDigits FY⟩ :=
    matchValidate_text_some rfl hmatch hFMne
      (by rw [lookupMonth_capFirst]; exact hlk)
  rw [classify_mk hns (append_cons_ne_nil _ _ _)]
  simp only [EXP_PATTERNS, List.findSome?_cons, hsucc]

theorem mv_text_digit_none {r : Rule} {sep : Char} {y a b : List Char}
    (hsep : r.separator = some sep) (htype : r.month_type = MonthType.text)
    (hsp : splitOnceChar sep y = some (a, b)) (hane : a ≠ [])
    (had : ∀ c ∈ a, isPyDigit c = true) : matchValidate r y = none :=
  matchValidate_none_of_ruleMatch (ruleMatch_text_none hsep htype hsp
    (by
      intro hcond
      have hx := hcond.2.1
      rw [all_isAsciiLetter_false_of_head_digit hane had] at hx
      exact Bool.noConfusion hx))

theorem mv_text_ylen_none {r : Rule} {sep : Char} {y a b : List Char}
    (hsep : r.separator = some sep) (htype : r.month_type = MonthType.text)
    (hsp : splitOnceChar sep y = some (a, b))
    (hlen : b.length ≠ r.year_length) : matchValidate r y = none :=
  matchValidate_none_of_ruleMatch
    (ruleMatch_text_none hsep htype hsp (fun hcond => hlen hcond.2.2.1))

theorem mv_numMF_mlen_none {r : Rule} {sep : Char} {y a b : List Char}
    (hsep : r.separator = some sep)
    (htype : r.month_type = MonthType.numeric) (hmf : r.month_first = true)
    (hsp : splitOnceChar sep y = some (a, b)) (hlen : ¬a.length ≤ 2) :
    matchValidate r y = none :=
  matchValidate_none_of_ruleMatch (ruleMatch_numMF_none hsep htype hmf hsp
    (fun hcond => hlen hcond.2.1))

theorem mv_numMF_ylen_none {r : Rule} {sep : Char} {y a b : List Char}
    (hsep : r.separator = some sep)
    (htype : r.month_type = MonthType.numeric) (hmf : r.month_first = true)
    (hsp : splitOnceChar sep y = some (a, b))
    (hlen : b.length ≠ r.year_length) : matchValidate r y = none :=
  matchValidate_none_of_ruleMatch (ruleMatch_numMF_none hsep htype hmf hsp
    (fun hcond => hlen hcond.2.2.2.1))

theorem mv_nosep_len_none {r : Rule} (hsep : r.separator = none)
    {y : List Char} (hlen : y.length ≠ 2 + r.year_length) :
    matchValidate r y = none :=
  matchValidate_none_of_ruleMatch
    (ruleMatch_nosep_none hsep (fun hcond => hlen hcond.1))

theorem mv_nosep_digit_none {r : Rule} (hsep : r.separator = none)
    {y : List Char} {c : Char} (hc : c ∈ y) (hd : isPyDigit c = false) :
    matchValidate r y = none :=
  matchValidate_none_of_ruleMatch (ruleMatch_nosep_none hsep
    (by
      intro hcond
      have hx := hcond.2
      rw [all_isPyDigit_false_of_mem hc hd] at hx
      exact Bool.noConfusion hx))

theorem mv_text_succ {r : Rule} {sep : Char} {y a b : List Char}
    (hsep : r.separator = some sep) (htype : r.month_type = MonthType.text)
    (hsp : splitOnceChar sep y = some (a, b)) (hane : a ≠ [])
    (halet : ∀ c ∈ a, isAsciiLetter c = true)
    (hblen : b.length = r.year_length)
    (hbd : ∀ c ∈ b, isPyDigit c = true) {m : Nat}
    (hlk : lookupMonth a = some m) :
    matchValidate r y = some ⟨r, m, some a, parseDigits b⟩ :=
  matchValidate_text_some htype
    (ruleMatch_text_some hsep htype hsp
      ⟨hane, List.all_eq_true.mpr halet, hblen, List.all_eq_true.mpr hbd⟩)
    hane hlk

theorem mv_numMF_succ {r : Rule} {sep : Char} {y a b : List Char}
    (hsep : r.separator = some sep)
    (htype : r.month_type = MonthType.numeric) (hmf : r.month_first = true)
    (hsp : splitOnceChar sep y = some (a, b)) (ha1 : 1 ≤ a.length)
    (ha2 : a.length ≤ 2) (had : ∀ c ∈ a, isPyDigit c = true)
    (hblen : b.length = r.year_length)
    (hbd : ∀ c ∈ b, isPyDigit c = true)
    (hm : 1 ≤ parseDigits a ∧ parseDigits a ≤ 12) :
    matchValidate r y = some ⟨r, parseDigits a, none, parseDigits b⟩ :=
  matchValidate_numeric_some htype
    (ruleMatch_numMF_some hsep htype hmf hsp
      ⟨ha1, ha2, List.all_eq_true.mpr had, hblen, List.all_eq_true.mpr hbd⟩)
    (by intro hn; rw [hn] at ha1; simp at ha1) hm

theorem mv_numYF_succ {r : Rule} {sep : Char} {y a b : List Char}
    (hsep : r.separator = some sep)
    (htype : r.month_type = MonthType.numeric) (hmf : r.month_first = false)
    (hsp : splitOnceChar sep y = some (a, b)) (ha4 : a.length = 4)
    (had : ∀ c ∈ a, isPyDigit c = true) (hb1 : 1 ≤ b.length)
    (hb2 : b.length ≤ 2) (hbd : ∀ c ∈ b, isPyDigit c = true)
    (hm : 1 ≤ parseDigits b ∧ parseDigits b ≤ 12) :
    matchValidate r y = some ⟨r, parseDigits b, none, parseDigits a⟩ :=
  matchValidate_numeric_some htype
    (ruleMatch_numYF_some hsep htype hmf hsp
      ⟨ha4, List.all_eq_true.mpr had, hb1, hb2, List.all_eq_true.mpr hbd⟩)
    (by intro hn; rw [hn] at hb1; simp at hb1) hm

theorem mv_nosep_succ {r : Rule} (hsep : r.separator = none)
    (htype : r.month_type = MonthType.numeric)
    {y : List Char} (hlen : y.length = 2 + r.year_length)
    (hd : ∀ c ∈ y, isPyDigit c = true)
    (hm : 1 ≤ parseDigits (y.take 2) ∧ parseDigits (y.take 2) ≤ 12) :
    matchValidate r y =
      some ⟨r, parseDigits (y.take 2), none, parseDigits (y.drop 2)⟩ :=
  matchValidate_numeric_some htype
    (ruleMatch_nosep_some hsep ⟨hlen, List.all_eq_true.mpr hd⟩)
    (by
      intro hn
      have hx := congrArg List.length hn
      rw [List.length_take, hlen] at hx
      simp at hx) hm

theorem reclassify_textDash4 {t FY : List Char} (htne : t ≠ [])
    (htlet : ∀ c ∈ t, isAsciiLetter c = true) {m : Nat}
    (hlk : lookupMonth t = some m)
    (hFYlen : FY.length = 4) (hFYd : ∀ c ∈ FY, isPyDigit c = true) :
    classify (String.mk (capFirst t ++ '-' :: FY)) =
      some ⟨⟨4, some '-', true, MonthType.text⟩, m, some (capFirst t),
        parseDigits FY⟩ := by
  have hFMne := capFirst_ne_nil htne
  have hFMlet := capFirst_letters htlet
  have hns : ∀ x ∈ capFirst t ++ '-' :: FY, isPySpace x = false :=
    nospace_parts (fun x hx => not_space_of_letter (hFMlet x hx))
      (by decide) (fun x hx => not_space_of_digit (hFYd x hx))
  have hsp : splitOnceChar '-' (capFirst t ++ '-' :: FY) =
      some (capFirst t, FY) :=
    splitOnceChar_append FY
      (fun hmem => absurd rfl (ne_dash_of_letter (hFMlet _ hmem)))
  have h0 : matchValidate ⟨2, some '-', true, MonthType.text⟩
      (capFirst t ++ '-' :: FY) = none :=
    mv_text_ylen_none rfl rfl hsp (by rw [hFYlen]; decide)
  have hsucc : matchValidate ⟨4, some '-', true, MonthType.text⟩
      (capFirst t ++ '-' :: FY) =
      some ⟨⟨4, some '-', true, MonthType.text⟩, m, some (capFirst t),
        parseDigits FY⟩ :=
    mv_text_succ rfl rfl hsp hFMne hFMlet hFYlen hFYd
      (by rw [lookupMonth_capFirst]; exact hlk)
  rw [classify_mk hns (append_cons_ne_nil _ _ _)]
  simp only [EXP_PATTERNS, List.findSome?_cons, h0, hsucc]

theorem reclassify_textSlash2 {t FY : List Char} (htne : t ≠ [])
    (htlet : ∀ c ∈ t, isAsciiLetter c = true) {m : Nat}
    (hlk : lookupMonth t = some m)
    (hFYlen : FY.length = 2) (hFYd : ∀ c ∈ FY, isPyDigit c = true) :
    classify (String.mk (capFirst t ++ '/' :: FY)) =
      some ⟨⟨2, some '/', true, MonthType.text⟩, m, some (capFirst t),
        parseDigits FY⟩ := by
  have hFMne := capFirst_ne_nil htne
  have hFMlet := capFirst_letters htlet
  have hns : ∀ x ∈ capFirst t ++ '/' :: FY, isPySpace x = false :=
    nospace_parts (fun x hx => not_space_of_letter (hFMlet x hx))
      (by decide) (fun x hx => not_space_of_digit (hFYd x hx))
  have hnodash : '-' ∉ capFirst t ++ '/' :: FY :=
    not_mem_parts (fun x hx => ne_dash_of_letter (hFMlet x hx)) (by decide)
      (fun x hx => ne_dash_of_digit (hFYd x hx))
  have hsp : splitOnceChar '/' (capFirst t ++ '/' :: FY) =
      some (capFirst t, FY) :=
    splitOnceChar_append FY
      (fun hmem => absurd rfl (ne_slash_of_letter (hFMlet _ hmem)))
  have h0 : matchValidate ⟨2, some '-', true, MonthType.text⟩
      (capFirst t ++ '/' :: FY) = none := mv_none_sep rfl hnodash
  have h1 : matchValidate ⟨4, some '-', true, MonthType.text⟩
      (capFirst t ++ '/' :: FY) = none := mv_none_sep rfl hnodash
  have hsucc : matchValidate ⟨2, some '/', true, MonthType.text⟩
      (capFirst t ++ '/' :: FY) =
      some ⟨⟨2, some '/', true, MonthType.text⟩, m, some (capFirst t),
        parseDigits FY⟩ :=
    mv_text_succ rfl rfl hsp hFMne hFMlet hFYlen hFYd
      (by rw [lookupMonth_capFirst]; exact hlk)
  rw [classify_mk hns (append_cons_ne_nil _ _ _)]
  simp only [EXP_PATTERNS, List.findSome?_cons, h0, h1, hsucc]

theorem reclassify_textSlash4 {t FY : List Char} (htne : t ≠ [])
    (htlet : ∀ c ∈ t, isAsciiLetter c = true) {m : Nat}
    (hlk : lookupMonth t = some m)
    (hFYlen : FY.length = 4) (hFYd : ∀ c ∈ FY, isPyDigit c = true) :
    classify (String.mk (capFirst t ++ '/' :: FY)) =
      some ⟨⟨4, some '/', true, MonthType.text⟩, m, some (capFirst t),
        parseDigits FY⟩ := by
  have hFMne := capFirst_ne_nil htne
  have hFMlet := capFirst_letters htlet
  have hns : ∀ x ∈ capFirst t ++ '/' :: FY, isPySpace x = false :=
    nospace_parts (fun x hx => not_space_of_letter (hFMlet x hx))
      (by decide) (fun x hx => not_space_of_digit (hFYd x hx))
  have hnodash : '-' ∉ capFirst t ++ '/' :: FY :=
    not_mem_parts (fun x hx => ne_dash_of_letter (hFMlet x hx)) (by decide)
      (fun x hx => ne_dash_of_digit (hFYd x hx))
  have hsp : splitOnceChar '/' (capFirst t ++ '/' :: FY) =
      some (capFirst t, FY) :=
    splitOnceChar_append FY
      (fun hmem => absurd rfl (ne_slash_of_letter (hFMlet _ hmem)))
  have h0 : matchValidate ⟨2, some '-', true, MonthType.text⟩
      (capFirst t ++ '/' :: FY) = none := mv_none_sep rfl hnodash
  have h1 : matchValidate ⟨4, some '-', true, MonthType.text⟩
      (capFirst t ++ '/' :: FY) = none := mv_none_sep rfl hnodash
  have h2 : matchValidate ⟨2, some '/', true, MonthType.text⟩
      (capFirst t ++ '/' :: FY) = none :=
    mv_text_ylen_none rfl rfl hsp (by rw [hFYlen]; decide)
  have hsucc : matchValidate ⟨4, some '/', true, MonthType.text⟩
      (capFirst t ++ '/' :: FY) =
      some ⟨⟨4, some '/', true, MonthType.text⟩, m, some (capFirst t),
        parseDigits FY⟩ :=
    mv_text_succ rfl rfl hsp hFMne hFMlet hFYlen hFYd
      (by rw [lookupMonth_capFirst]; exact hlk)
  rw [classify_mk hns (append_cons_ne_nil _ _ _)]
  simp only [EXP_PATTERNS, List.findSome?_cons, h0, h1, h2, hsucc]

theorem reclassify_numSlash2 {FM FY : List Char} (hFMlen : FM.length = 2)
    (hFMd : ∀ c ∈ FM, isPyDigit c = true)
    (hm : 1 ≤ parseDigits FM ∧ parseDigits FM ≤ 12)
    (hFYlen : FY.length = 2) (hFYd : ∀ c ∈ FY, isPyDigit c = true) :
    classify (String.mk (FM ++ '/' :: FY)) =
      some ⟨⟨2, some '/', true, MonthType.numeric⟩, parseDigits FM, none,
        parseDigits FY⟩ := by
  have hFMne : FM ≠ [] := by
    intro hn; rw [hn] at hFMlen; simp at hFMlen
  have hns : ∀ x ∈ FM ++ '/' :: FY, isPySpace x = false :=
    nospace_parts (fun x hx => not_space_of_digit (hFMd x hx)) (by decide)
      (fun x hx => not_space_of_digit (hFYd x hx))
  have hnodash : '-' ∉ FM ++ '/' :: FY :=
    not_mem_parts (fun x hx => ne_dash_of_digit (hFMd x hx)) (by decide)
      (fun x hx => ne_dash_of_digit (hFYd x hx))
  have hsp : splitOnceChar '/' (FM ++ '/' :: FY) = some (FM, FY) :=
    splitOnceChar_append FY
      (fun hmem => absurd rfl (ne_slash_of_digit (hFMd _ hmem)))
  have h0 : matchValidate ⟨2, some '-', true, MonthType.text⟩
      (FM ++ '/' :: FY) = none := mv_none_sep rfl hnodash
  have h1 : matchValidate ⟨4, some '-', true, MonthType.text⟩
      (FM ++ '/' :: FY) = none := mv_none_sep rfl hnodash
  have h2 : matchValidate ⟨2, some '/', true, MonthType.text⟩
      (FM ++ '/' :: FY) = none := mv_text_digit_none rfl rfl hsp hFMne hFMd
  have h3 : matchValidate ⟨4, some '/', true, MonthType.text⟩
      (FM ++ '/' :: FY) = none := mv_text_digit_none rfl rfl hsp hFMne hFMd
  have hsucc : matchValidate ⟨2, some '/', true, MonthType.numeric⟩
      (FM ++ '/' :: FY) =
      some ⟨⟨2, some '/', true, MonthType.numeric⟩, parseDigits FM, none,
        parseDigits FY⟩ :=
    mv_numMF_succ rfl rfl rfl hsp (by omega) (by omega) hFMd hFYlen hFYd hm
  rw [classify_mk hns (append_cons_ne_nil _ _ _)]
  simp only [EXP_PATTERNS, List.findSome?_cons, h0, h1, h2, h3, hsucc]

theorem reclassify_numDash2 {FM FY : List Char} (hFMlen : FM.length = 2)
    (hFMd : ∀ c ∈ FM, isPyDigit c = true)
    (hm : 1 ≤ parseDigits FM ∧ parseDigits FM ≤ 12)
    (hFYlen : FY.length = 2) (hFYd : ∀ c ∈ FY, isPyDigit c = true) :
    classify (String.mk (FM ++ '-' :: FY)) =
      some ⟨⟨2, some '-', true, MonthType.numeric⟩, parseDigits FM, none,
        parseDigits FY⟩ := by
  have hFMne : FM ≠ [] := by
    intro hn; rw [hn] at hFMlen; simp at hFMlen
  have hns : ∀ x ∈ FM ++ '-' :: FY, isPySpace x = false :=
    nospace_parts (fun x hx => not_space_of_digit (hFMd x hx)) (by decide)
      (fun x hx => not_space_of_digit (hFYd x hx))
  have hnoslash : '/' ∉ FM ++ '-' :: FY :=
    not_mem_parts (fun x hx => ne_slash_of_digit (hFMd x hx)) (by decide)
      (fun x hx => ne_slash_of_digit (hFYd x hx))
  have hsp : splitOnceChar '-' (FM ++ '-' :: FY) = some (FM, FY) :=
    splitOnceChar_append FY
      (fun hmem => absurd rfl (ne_dash_of_digit (hFMd _ hmem)))
  have h0 : matchValidate ⟨2, some '-', true, MonthType.text⟩
      (FM ++ '-' :: FY) = none := mv_text_digit_none rfl rfl hsp hFMne hFMd
  have h1 : matchValidate ⟨4, some '-', true, MonthType.text⟩
      (FM ++ '-' :: FY) = none := mv_text_digit_none rfl rfl hsp hFMne hFMd
  have h2 : matchValidate ⟨2, some '/', true, MonthType.text⟩
      (FM ++ '-' :: FY) = none := mv_none_sep rfl hnoslash
  have h3 : matchValidate ⟨4, some '/', true, MonthType.text⟩
      (FM ++ '-' :: FY) = none := mv_none_sep rfl hnoslash
  have h4 : matchValidate ⟨2, some '/', true, MonthType.numeric⟩
      (FM ++ '-' :: FY) = none := mv_none_sep rfl hnoslash
  have hsucc : matchValidate ⟨2, some '-', true, MonthType.numeric⟩
      (FM ++ '-' :: FY) =
      some ⟨⟨2, some '-', true, MonthType.numeric⟩, parseDigits FM, none,
        parseDigits FY⟩ :=
    mv_numMF_succ rfl rfl rfl hsp (by omega) (by omega) hFMd hFYlen hFYd hm
  rw [classify_mk hns (append_cons_ne_nil _ _ _)]
  simp only [EXP_PATTERNS, List.findSome?_cons, h0, h1, h2, h3, h4, hsucc]

theorem reclassify_numSlash4 {FM FY : List Char} (hFMlen : FM.length = 2)
    (hFMd : ∀ c ∈ FM, isPyDigit c = true)
    (hm : 1 ≤ parseDigits FM ∧ parseDigits FM ≤ 12)
    (hFYlen : FY.length = 4) (hFYd : ∀ c ∈ FY, isPyDigit c = true) :
    classify (String.mk (FM ++ '/' :: FY)) =
      some ⟨⟨4, some '/', true, MonthType.numeric⟩, parseDigits FM, none,
        parseDigits FY⟩ := by
  have hFMne : FM ≠ [] := by
    intro hn; rw [hn] at hFMlen; simp at hFMlen
  have hns : ∀ x ∈ FM ++ '/' :: FY, isPySpace x = false :=
    nospace_parts (fun x hx => not_space_of_digit (hFMd x hx)) (by decide)
      (fun x hx => not_space_of_digit (hFYd x hx))
  have hnodash : '-' ∉ FM ++ '/' :: FY :=
    not_mem_parts (fun x hx => ne_dash_of_digit (hFMd x hx)) (by decide)
      (fun x hx => ne_dash_of_digit (hFYd x hx))
  have hsp : splitOnceChar '/' (FM ++ '/' :: FY) = some (FM, FY) :=
    splitOnceChar_append FY
      (fun hmem => absurd rfl (ne_slash_of_digit (hFMd _ hmem)))
  have h0 : matchValidate ⟨2, some '-', true, MonthType.text⟩
      (FM ++ '/' :: FY) = none := mv_none_sep rfl hnodash
  have h1 : matchValidate ⟨4, some '-', true, MonthType.text⟩
      (FM ++ '/' :: FY) = none := mv_none_sep rfl hnodash
  have h2 : matchValidate ⟨2, some '/', true, MonthType.text⟩
      (FM ++ '/' :: FY) = none := mv_text_digit_none rfl rfl hsp hFMne hFMd
  have h3 : matchValidate ⟨4, some '/', true, MonthType.text⟩
      (FM ++ '/' :: FY) = none := mv_text_digit_none rfl rfl hsp hFMne hFMd
  have h4 : matchValidate ⟨2, some '/', true, MonthType.numeric⟩
      (FM ++ '/' :: FY) = none :=
    mv_numMF_ylen_none rfl rfl rfl hsp (by rw [hFYlen]; decide)
  have h5 : matchValidate ⟨2, some '-', true, MonthType.numeric⟩
      (FM ++ '/' :: FY) = none := mv_none_sep rfl hnodash
  have hsucc : matchValidate ⟨4, some '/', true, MonthType.numeric⟩
      (FM ++ '/' :: FY) =
      some ⟨⟨4, some '/', true, MonthType.numeric⟩, parseDigits FM, none,
        parseDigits FY⟩ :=
    mv_numMF_succ rfl rfl rfl hsp (by omega) (by omega) hFMd hFYlen hFYd hm
  rw [classify_mk hns (append_cons_ne_nil _ _ _)]
  simp only [EXP_PATTERNS, List.findSome?_cons, h0, h1, h2, h3, h4, h5,
    hsucc]

theorem reclassify_numDash4 {FM FY : List Char} (hFMlen : FM.length = 2)
    (hFMd : ∀ c ∈ FM, isPyDigit c = true)
    (hm : 1 ≤ parseDigits FM ∧ parseDigits FM ≤ 12)
    (hFYlen : FY.length = 4) (hFYd : ∀ c ∈ FY, isPyDigit c = true) :
    classify (String.mk (FM ++ '-' :: FY)) =
      some ⟨⟨4, some '-', true, MonthType.numeric⟩, parseDigits FM, none,
        parseDigits FY⟩ := by
  have hFMne : FM ≠ [] := by
    intro hn; rw [hn] at hFMlen; simp at hFMlen
  have hns : ∀ x ∈ FM ++ '-' :: FY, isPySpace x = false :=
    nospace_parts (fun x hx => not_space_of_digit (hFMd x hx)) (by decide)
      (fun x hx => not_space_of_digit (hFYd x hx))
  have hnoslash : '/' ∉ FM ++ '-' :: FY :=
    not_mem_parts (fun x hx => ne_slash_of_digit (hFMd x hx)) (by decide)
      (fun x hx => ne_slash_of_digit (hFYd x hx))
  have hsp : splitOnceChar '-' (FM ++ '-' :: FY) = some (FM, FY) :=
    splitOnceChar_append FY
      (fun hmem => absurd rfl (ne_dash_of_digit (hFMd _ hmem)))
  have h0 : matchValidate ⟨2, some '-', true, MonthType.text⟩
      (FM ++ '-' :: FY) = none := mv_text_digit_none rfl rfl hsp hFMne hFMd
  have h1 : matchValidate ⟨4, some '-', true, MonthType.text⟩
      (FM ++ '-' :: FY) = none := mv_text_digit_none rfl rfl hsp hFMne hFMd
  have h2 : matchValidate ⟨2, some '/', true, MonthType.text⟩
      (FM ++ '-' :: FY) = none := mv_none_sep rfl hnoslash
  have h3 : matchValidate ⟨4, some '/', true, MonthType.text⟩
      (FM ++ '-' :: FY) = none := mv_none_sep rfl hnoslash
  have h4 : matchValidate ⟨2, some '/', true, MonthType.numeric⟩
      (FM ++ '-' :: FY) = none := mv_none_sep rfl hnoslash
  have h5 : matchValidate ⟨2, some '-', true, MonthType.numeric⟩
      (FM ++ '-' :: FY) = none :=
    mv_numMF_ylen_none rfl rfl rfl hsp (by rw [hFYlen]; decide)
  have h6 : matchValidate ⟨4, some '/', true, MonthType.numeric⟩
      (FM ++ '-' :: FY) = none := mv_none_sep rfl hnoslash
  have hsucc : matchValidate ⟨4, some '-', true, MonthType.numeric⟩
      (FM ++ '-' :: FY) =
      some ⟨⟨4, some '-', true, MonthType.numeric⟩, parseDigits FM, none,
        parseDigits FY⟩ :=
    mv_numMF_succ rfl rfl rfl hsp (by omega) (by omega) hFMd hFYlen hFYd hm
  rw [classify_mk hns (append_cons_ne_nil _ _ _)]
  simp only [EXP_PATTERNS, List.findSome?_cons, h0, h1, h2, h3, h4, h5, h6,
    hsucc]

theorem reclassify_numYFSlash {FM FY : List Char} (hFMlen : FM.length = 2)
    (hFMd : ∀ c ∈ FM, isPyDigit c = true)
    (hm : 1 ≤ parseDigits FM ∧ parseDigits FM ≤ 12)
    (hFYlen : FY.length = 4) (hFYd : ∀ c ∈ FY, isPyDigit c = true) :
    classify (String.mk (FY ++ '/' :: FM)) =
      some ⟨⟨4, some '/', false, MonthType.numeric⟩, parseDigits FM, none,
        parseDigits FY⟩ := by
  have hFYne : FY ≠ [] := by
    intro hn; rw [hn] at hFYlen; simp at hFYlen
  have hns : ∀ x ∈ FY ++ '/' :: FM, isPySpace x = false :=
    nospace_parts (fun x hx => not_space_of_digit (hFYd x hx)) (by decide)
      (fun x hx => not_space_of_digit (hFMd x hx))
  have hnodash : '-' ∉ FY ++ '/' :: FM :=
    not_mem_parts (fun x hx => ne_dash_of_digit (hFYd x hx)) (by decide)
      (fun x hx => ne_dash_of_digit (hFMd x hx))
  have hsp : splitOnceChar '/' (FY ++ '/' :: FM) = some (FY, FM) :=
    splitOnceChar_append FM
      (fun hmem => absurd rfl (ne_slash_of_digit (hFYd _ hmem)))
  have h0 : matchValidate ⟨2, some '-', true, MonthType.text⟩
      (FY ++ '/' :: FM) = none := mv_none_sep rfl hnodash
  have h1 : matchValidate ⟨4, some '-', true, MonthType.text⟩
      (FY ++ '/' :: FM) = none := mv_none_sep rfl hnodash
  have h2 : matchValidate ⟨2, some '/', true, MonthType.text⟩
      (FY ++ '/' :: FM) = none := mv_text_digit_none rfl rfl hsp hFYne hFYd
  have h3 : matchValidate ⟨4, some '/', true, MonthType.text⟩
      (FY ++ '/' :: FM) = none := mv_text_digit_none rfl rfl hsp hFYne hFYd
  have h4 : matchValidate ⟨2, some '/', true, MonthType.numeric⟩
      (FY ++ '/' :: FM) = none :=
    mv_numMF_mlen_none rfl rfl rfl hsp (by rw [hFYlen]; decide)
  have h5 : matchValidate ⟨2, some '-', true, MonthType.numeric⟩
      (FY ++ '/' :: FM) = none := mv_none_sep rfl hnodash
  have h6 : matchValidate ⟨4, some '/', true, MonthType.numeric⟩
      (FY ++ '/' :: FM) = none :=
    mv_numMF_mlen_none rfl rfl rfl hsp (by rw [hFYlen]; decide)
  have h7 : matchValidate ⟨4, some '-', true, MonthType.numeric⟩
      (FY ++ '/' :: FM) = none := mv_none_sep rfl hnodash
  have hsucc : matchValidate ⟨4, some '/', false, MonthType.numeric⟩
      (FY ++ '/' :: FM) =
      some ⟨⟨4, some '/', false, MonthType.numeric⟩, parseDigits FM, none,
        parseDigits FY⟩ :=
    mv_numYF_succ rfl rfl rfl hsp hFYlen hFYd (by omega) (by omega) hFMd hm
  rw [classify_mk hns (append_cons_ne_nil _ _ _)]
  simp only [EXP_PATTERNS, List.findSome?_cons, h0, h1, h2, h3, h4, h5, h6,
    h7, hsucc]

theorem reclassify_numYFDash {FM FY : List Char} (hFMlen : FM.length = 2)
    (hFMd : ∀ c ∈ FM, isPyDigit c = true)
    (hm : 1 ≤ parseDigits FM ∧ parseDigits FM ≤ 12)
    (hFYlen : FY.length = 4) (hFYd : ∀ c ∈ FY, isPyDigit c = true) :
    classify (String.mk (FY ++ '-' :: FM)) =
      some ⟨⟨4, some '-', false, MonthType.numeric⟩, parseDigits FM, none,
        parseDigits FY⟩ := by
  have hFYne : FY ≠ [] := by
    intro hn; rw [hn] at hFYlen; simp at hFYlen
  have hns : ∀ x ∈ FY ++ '-' :: FM, isPySpace x = false :=
    nospace_parts (fun x hx => not_space_of_digit (hFYd x hx)) (by decide)
      (fun x hx => not_space_of_digit (hFMd x hx))
  have hnoslash : '/' ∉ FY ++ '-' :: FM :=
    not_mem_parts (fun x hx => ne_slash_of_digit (hFYd x hx)) (by decide)
      (fun x hx => ne_slash_of_digit (hFMd x hx))
  have hsp : splitOnceChar '-' (FY ++ '-' :: FM) = some (FY, FM) :=
    splitOnceChar_append FM
      (fun hmem => absurd rfl (ne_dash_of_digit (hFYd _ hmem)))
  have h0 : matchValidate ⟨2, some '-', true, MonthType.text⟩
      (FY ++ '-' :: FM) = none := mv_text_digit_none rfl rfl hsp hFYne hFYd
  have h1 : matchValidate ⟨4, some '-', true, MonthType.text⟩
      (FY ++ '-' :: FM) = none := mv_text_digit_none rfl rfl hsp hFYne hFYd
  have h2 : matchValidate ⟨2, some '/', true, MonthType.text⟩
      (FY ++ '-' :: FM) = none := mv_none_sep rfl hnoslash
  have h3 : matchValidate ⟨4, some '/', true, MonthType.text⟩
      (FY ++ '-' :: FM) = none := mv_none_sep rfl hnoslash
  have h4 : matchValidate ⟨2, some '/', true, MonthType.numeric⟩
      (FY ++ '-' :: FM) = none := mv_none_sep rfl hnoslash
  have h5 : matchValidate ⟨2, some '-', true, MonthType.numeric⟩
      (FY ++ '-' :: FM) = none :=
    mv_numMF_mlen_none rfl rfl rfl hsp (by rw [hFYlen]; decide)
  have h6 : matchValidate ⟨4, some '/', true, MonthType.numeric⟩
      (FY ++ '-' :: FM) = none := mv_none_sep rfl hnoslash
  have h7 : matchValidate ⟨4, some '-', true, MonthType.numeric⟩
      (FY ++ '-' :: FM) = none :=
    mv_numMF_mlen_none rfl rfl rfl hsp (by rw [hFYlen]; decide)
  have h8 : matchValidate ⟨4, some '/', false, MonthType.numeric⟩
      (FY ++ '-' :: FM) = none := mv_none_sep rfl hnoslash
  have hsucc : matchValidate ⟨4, some '-', false, MonthType.numeric⟩
      (FY ++ '-' :: FM) =
      some ⟨⟨4, some '-', false, MonthType.numeric⟩, parseDigits FM, none,
        parseDigits FY⟩ :=
    mv_numYF_succ rfl rfl rfl hsp hFYlen hFYd (by omega) (by omega) hFMd hm
  rw [classify_mk hns (append_cons_ne_nil _ _ _)]
  simp only [EXP_PATTERNS, List.findSome?_cons, h0, h1, h2, h3, h4, h5, h6,
    h7, h8, hsucc]

theorem reclassify_nosep2 {FM FY : List Char} (hFMlen : FM.length = 2)
    (hFMd : ∀ c ∈ FM, isPyDigit c = true)
    (hm : 1 ≤ parseDigits FM ∧ parseDigits FM ≤ 12)
    (hFYlen : FY.length = 2) (hFYd : ∀ c ∈ FY, isPyDigit c = true) :
    classify (String.mk (FM ++ FY)) =
      some ⟨⟨2, none, true, MonthType.numeric⟩, parseDigits FM, none,
        parseDigits FY⟩ := by
  have hall : ∀ c ∈ FM ++ FY, isPyDigit c = true := by
    intro c hc
    rcases List.mem_append.mp hc with h | h
    · exact hFMd c h
    · exact hFYd c h
  have hne : FM ++ FY ≠ [] := by
    intro hn
    rw [List.append_eq_nil] at hn
    rw [hn.1] at hFMlen
    simp at hFMlen
  have hns : ∀ x ∈ FM ++ FY, isPySpace x = false :=
    fun x hx => not_space_of_digit (hall x hx)
  have hnodash : '-' ∉ FM ++ FY :=
    not_mem_two_parts (fun x hx => ne_dash_of_digit (hFMd x hx))
      (fun x hx => ne_dash_of_digit (hFYd x hx))
  have hnoslash : '/' ∉ FM ++ FY :=
    not_mem_two_parts (fun x hx => ne_slash_of_digit (hFMd x hx))
      (fun x hx => ne_slash_of_digit (hFYd x hx))
  have hlen : (FM ++ FY).length = 2 +
      (⟨2, none, true, MonthType.numeric⟩ : Rule).year_length := by
    rw [List.length_append, hFMlen, hFYlen]
  have htake : (FM ++ FY).take 2 = FM := by
    rw [← hFMlen]
    exact List.take_left FM FY
  have hdrop : (FM ++ FY).drop 2 = FY := by
    rw [← hFMlen]
    exact List.drop_left FM FY
  have h0 : matchValidate ⟨2, some '-', true, MonthType.text⟩
      (FM ++ FY) = none := mv_none_sep rfl hnodash
  have h1 : matchValidate ⟨4, some '-', true, MonthType.text⟩
      (FM ++ FY) = none := mv_none_sep rfl hnodash
  have h2 : matchValidate ⟨2, some '/', true, MonthType.text⟩
      (FM ++ FY) = none := mv_none_sep rfl hnoslash
  have h3 : matchValidate ⟨4, some '/', true, MonthType.text⟩
      (FM ++ FY) = none := mv_none_sep rfl hnoslash
  have h4 : matchValidate ⟨2, some '/', true, MonthType.numeric⟩
      (FM ++ FY) = none := mv_none_sep rfl hnoslash
  have h5 : matchValidate ⟨2, some '-', true, MonthType.numeric⟩
      (FM ++ FY) = none := mv_none_sep rfl hnodash
  have h6 : matchValidate ⟨4, some '/', true, MonthType.numeric⟩
      (FM ++ FY) = none := mv_none_sep rfl hnoslash
  have h7 : matchValidate ⟨4, some '-', true, MonthType.numeric⟩
      (FM ++ FY) = none := mv_none_sep rfl hnodash
  have h8 : matchValidate ⟨4, some '/', false, MonthType.numeric⟩
      (FM ++ FY) = none := mv_none_sep rfl hnoslash
  have h9 : matchValidate ⟨4, some '-', false, MonthType.numeric⟩
      (FM ++ FY) = none := mv_none_sep rfl hnodash
  have hsucc : matchValidate ⟨2, none, true, MonthType.numeric⟩
      (FM ++ FY) =
      some ⟨⟨2, none, true, MonthType.numeric⟩, parseDigits FM, none,
        parseDigits FY⟩ := by
    have hx := mv_nosep_succ rfl rfl hlen hall (by rw [htake]; exact hm)
    rw [htake, hdrop] at hx
    exact hx
  rw [classify_mk hns hne]
  simp only [EXP_PATTERNS, List.findSome?_cons, h0, h1, h2, h3, h4, h5, h6,
    h7, h8, h9, hsucc]

theorem reclassify_nosep4 {FM FY : List Char} (hFMlen : FM.length = 2)
    (hFMd : ∀ c ∈ FM, isPyDigit c = true)
    (hm : 1 ≤ parseDigits FM ∧ parseDigits FM ≤ 12)
    (hFYlen : FY.length = 4) (hFYd : ∀ c ∈ FY, isPyDigit c = true) :
    classify (String.mk (FM ++ FY)) =
      some ⟨⟨4, none, true, MonthType.numeric⟩, parseDigits FM, none,
        parseDigits FY⟩ := by
  have hall : ∀ c ∈ FM ++ FY, isPyDigit c = true := by
    intro c hc
    rcases List.mem_append.mp hc with h | h
    · exact hFMd c h
    · exact hFYd c h
  have hne : FM ++ FY ≠ [] := by
    intro hn
    rw [List.append_eq_nil] at hn
    rw [hn.1] at hFMlen
    simp at hFMlen
  have hns : ∀ x ∈ FM ++ FY, isPySpace x = false :=
    fun x hx => not_space_of_digit (hall x hx)
  have hnodash : '-' ∉ FM ++ FY :=
    not_mem_two_parts (fun x hx => ne_dash_of_digit (hFMd x hx))
      (fun x hx => ne_dash_of_digit (hFYd x hx))
  have hnoslash : '/' ∉ FM ++ FY :=
    not_mem_two_parts (fun x hx => ne_slash_of_digit (hFMd x hx))
      (fun x hx => ne_slash_of_digit (hFYd x hx))
  have hlen : (FM ++ FY).length = 2 +
      (⟨4, none, true, MonthType.numeric⟩ : Rule).year_length := by
    rw [List.length_append, hFMlen, hFYlen]
  have htake : (FM ++ FY).take 2 = FM := by
    rw [← hFMlen]
    exact List.take_left FM FY
  have hdrop : (FM ++ FY).drop 2 = FY := by
    rw [← hFMlen]
    exact List.drop_left FM FY
  have h0 : matchValidate ⟨2, some '-', true, MonthType.text⟩
      (FM ++ FY) = none := mv_none_sep rfl hnodash
  have h1 : matchValidate ⟨4, some '-', true, MonthType.text⟩
      (FM ++ FY) = none := mv_none_sep rfl hnodash
  have h2 : matchValidate ⟨2, some '/', true, MonthType.text⟩
      (FM ++ FY) = none := mv_none_sep rfl hnoslash
  have h3 : matchValidate ⟨4, some '/', true, MonthType.text⟩
      (FM ++ FY) = none := mv_none_sep rfl hnoslash
  have h4 : matchValidate ⟨2, some '/', true, MonthType.numeric⟩
      (FM ++ FY) = none := mv_none_sep rfl hnoslash
  have h5 : matchValidate ⟨2, some '-', true, MonthType.numeric⟩
      (FM ++ FY) = none := mv_none_sep rfl hnodash
  have h6 : matchValidate ⟨4, some '/', true, MonthType.numeric⟩
      (FM ++ FY) = none := mv_none_sep rfl hnoslash
  have h7 : matchValidate ⟨4, some '-', true, MonthType.numeric⟩
      (FM ++ FY) = none := mv_none_sep rfl hnodash
  have h8 : matchValidate ⟨4, some '/', false, MonthType.numeric⟩
      (FM ++ FY) = none := mv_none_sep rfl hnoslash
  have h9 : matchValidate ⟨4, some '-', false, MonthType.numeric⟩
      (FM ++ FY) = none := mv_none_sep rfl hnodash
  have h10 : matchValidate ⟨2, none, true, MonthType.numeric⟩
      (FM ++ FY) = none := by
    apply mv_nosep_len_none rfl
    rw [List.length_append, hFMlen, hFYlen]
    decide
  have hsucc : matchValidate ⟨4, none, true, MonthType.numeric⟩
      (FM ++ FY) =
      some ⟨⟨4, none, true, MonthType.numeric⟩, parseDigits FM, none,
        parseDigits FY⟩ := by
    have hx := mv_nosep_succ rfl rfl hlen hall (by rw [htake]; exact hm)
    rw [htake, hdrop] at hx
    exact hx
  rw [classify_mk hns hne]
  simp only [EXP_PATTERNS, List.findSome?_cons, h0, h1, h2, h3, h4, h5, h6,
    h7, h8, h9, h10, hsucc]

theorem year_block_two {r : Rule} (h2 : r.year_length = 2) (v : Int) :
    (formatYear r v).length = r.year_length ∧
    (∀ c ∈ formatYear r v, isPyDigit c = true) ∧
    formatYear r ((parseDigits (formatYear r v) : Int) + 0) =
      formatYear r v := by
  have h0 := emod100_nonneg v
  refine ⟨?_, ?_, ?_⟩
  · rw [formatYear_two h2, h2]
    exact pyFormat_two_emod_length v
  · rw [formatYear_two h2]
    exact pyFormat_all_digits h0 2
  · have hidem : Int.emod (Int.emod v 100) 100 = Int.emod v 100 :=
      Int.emod_eq_of_lt h0 (emod100_lt v)
    rw [formatYear_two h2, formatYear_two h2, parseDigits_pyFormat h0,
      Int.toNat_of_nonneg h0, Int.add_zero, hidem]

theorem year_block_four {r : Rule} (h4 : r.year_length = 4) {v : Int}
    (h0 : 0 ≤ v) (hlt : v < 10000) :
    (formatYear r v).length = r.year_length ∧
    (∀ c ∈ formatYear r v, isPyDigit c = true) ∧
    formatYear r ((parseDigits (formatYear r v) : Int) + 0) =
      formatYear r v := by
  refine ⟨?_, ?_, ?_⟩
  · rw [formatYear_four h4, h4]
    apply pyFormat_length 4 h0 (by omega)
    have h10 : (10 : Int) ^ 4 = 10000 := by norm_num
    rw [h10]
    exact hlt
  · rw [formatYear_four h4]
    exact pyFormat_all_digits h0 4
  · rw [formatYear_four h4, formatYear_four h4, parseDigits_pyFormat h0,
      Int.toNat_of_nonneg h0, Int.add_zero]

theorem month_block_num {m : Nat} (h1 : 1 ≤ m) (h12 : m ≤ 12) :
    (pyFormat 2 (m : Int)).length = 2 ∧
    (∀ c ∈ pyFormat 2 (m : Int), isPyDigit c = true) ∧
    parseDigits (pyFormat 2 (m : Int)) = m := by
  have h0 : (0 : Int) ≤ (m : Int) := Int.natCast_nonneg m
  refine ⟨?_, pyFormat_all_digits h0 2, ?_⟩
  · apply pyFormat_length 2 h0 (by omega)
    have h10 : (10 : Int) ^ 2 = 100 := by norm_num
    rw [h10]
    omega
  · rw [parseDigits_pyFormat h0]
    omega

/-- Core lemma for the idempotence claim: re-running the transform with
offset 0 on a rendered output reproduces it, provided the matched rule
has 2-digit year width or the 4-digit new year fits in 0..9999. -/
theorem roundtrip (p : Parsed) (hp : ParsedInv p) (k : Int)
    (hw : p.rule.year_length = 2 ∨
      (0 ≤ (p.year : Int) + k ∧ (p.year : Int) + k < 10000)) :
    calculate_new_expiry (String.mk (apply_offset p k)) 0 =
      some (String.mk (apply_offset p k)) := by
  obtain ⟨r, m, mt, yr⟩ := p
  obtain ⟨hmem, hm1, hm12, hyb, hdisj⟩ := hp
  have hylen24 : r.year_length = 2 ∨ r.year_length = 4 := by
    have hall : ∀ x ∈ EXP_PATTERNS,
        x.year_length = 2 ∨ x.year_length = 4 := by decide
    exact hall r hmem
  have hyfacts : (formatYear r ((yr : Int) + k)).length = r.year_length ∧
      (∀ c ∈ formatYear r ((yr : Int) + k), isPyDigit c = true) ∧
      formatYear r
          ((parseDigits (formatYear r ((yr : Int) + k)) : Int) + 0) =
        formatYear r ((yr : Int) + k) := by
    rcases hylen24 with h2 | h4
    · exact year_block_two h2 _
    · rcases hw with hw2 | ⟨hge, hlt⟩
      · rw [h4] at hw2
        exact absurd hw2 (by decide)
      · exact year_block_four h4 hge hlt
  obtain ⟨hFYlen, hFYd, hFYre⟩ := hyfacts
  simp only [EXP_PATTERNS, List.mem_cons, List.not_mem_nil, or_false]
    at hmem
  rcases hmem with rfl | rfl | rfl | rfl | rfl | rfl | rfl | rfl | rfl |
    rfl | rfl | rfl
  · rcases hdisj with ⟨t, hmt, -, htne, htlet, hlk⟩ | ⟨-, hnum⟩
    · subst hmt
      have happ : apply_offset ⟨⟨2, some '-', true, MonthType.text⟩, m, some t, yr⟩ k =
          capFirst t ++ '-' :: formatYear ⟨2, some '-', true, MonthType.text⟩ ((yr : Int) + k) := rfl
      rw [happ]
      have hcl := reclassify_textDash2 htne htlet hlk hFYlen hFYd
      rw [calculate_eq_of_classify hcl 0]
      have hback : apply_offset ⟨⟨2, some '-', true, MonthType.text⟩, m, some (capFirst t),
          parseDigits (formatYear ⟨2, some '-', true, MonthType.text⟩ ((yr : Int) + k))⟩ 0 =
          capFirst t ++ '-' :: formatYear ⟨2, some '-', true, MonthType.text⟩ ((yr : Int) + k) := by
        unfold apply_offset
        rw [hFYre]
        show capFirst (capFirst t) ++ '-' ::
            formatYear ⟨2, some '-', true, MonthType.text⟩ ((yr : Int) + k) =
          capFirst t ++ '-' :: formatYear ⟨2, some '-', true, MonthType.text⟩ ((yr : Int) + k)
        rw [capFirst_capFirst]
      rw [hback]
    · exact MonthType.noConfusion hnum
  · rcases hdisj with ⟨t, hmt, -, htne, htlet, hlk⟩ | ⟨-, hnum⟩
    · subst hmt
      have happ : apply_offset ⟨⟨4, some '-', true, MonthType.text⟩, m, some t, yr⟩ k =
          capFirst t ++ '-' :: formatYear ⟨4, some '-', true, MonthType.text⟩ ((yr : Int) + k) := rfl
      rw [happ]
      have hcl := reclassify_textDash4 htne htlet hlk hFYlen hFYd
      rw [calculate_eq_of_classify hcl 0]
      have hback : apply_offset ⟨⟨4, some '-', true, MonthType.text⟩, m, some (capFirst t),
          parseDigits (formatYear ⟨4, some '-', true, MonthType.text⟩ ((yr : Int) + k))⟩ 0 =
          capFirst t ++ '-' :: formatYear ⟨4, some '-', true, MonthType.text⟩ ((yr : Int) + k) := by
        unfold apply_offset
        rw [hFYre]
        show capFirst (capFirst t) ++ '-' ::
            formatYear ⟨4, some '-', true, MonthType.text⟩ ((yr : Int) + k) =
          capFirst t ++ '-' :: formatYear ⟨4, some '-', true, MonthType.text⟩ ((yr : Int) + k)
        rw [capFirst_capFirst]
      rw [hback]
    · exact MonthType.noConfusion hnum
  · rcases hdisj with ⟨t, hmt, -, htne, htlet, hlk⟩ | ⟨-, hnum⟩
    · subst hmt
      have happ : apply_offset ⟨⟨2, some '/', true, MonthType.text⟩, m, some t, yr⟩ k =
          capFirst t ++ '/' :: formatYear ⟨2, some '/', true, MonthType.text⟩ ((yr : Int) + k) := rfl
      rw [happ]
      have hcl := reclassify_textSlash2 htne htlet hlk hFYlen hFYd
      rw [calculate_eq_of_classify hcl 0]
      have hback : apply_offset ⟨⟨2, some '/', true, MonthType.text⟩, m, some (capFirst t),
          parseDigits (formatYear ⟨2, some '/', true, MonthType.text⟩ ((yr : Int) + k))⟩ 0 =
          capFirst t ++ '/' :: formatYear ⟨2, some '/', true, MonthType.text⟩ ((yr : Int) + k) := by
        unfold apply_offset
        rw [hFYre]
        show capFirst (capFirst t) ++ '/' ::
            formatYear ⟨2, some '/', true, MonthType.text⟩ ((yr : Int) + k) =
          capFirst t ++ '/' :: formatYear ⟨2, some '/', true, MonthType.text⟩ ((yr : Int) + k)
        rw [capFirst_capFirst]
      rw [hback]
    · exact MonthType.noConfusion hnum
  · rcases hdisj with ⟨t, hmt, -, htne, htlet, hlk⟩ | ⟨-, hnum⟩
    · subst hmt
      have happ : apply_offset ⟨⟨4, some '/', true, MonthType.text⟩, m, some t, yr⟩ k =
          capFirst t ++ '/' :: formatYear ⟨4, some '/', true, MonthType.text⟩ ((yr : Int) + k) := rfl
      rw [happ]
      have hcl := reclassify_textSlash4 htne htlet hlk hFYlen hFYd
      rw [calculate_eq_of_classify hcl 0]
      have hback : apply_offset ⟨⟨4, some '/', true, MonthType.text⟩, m, some (capFirst t),
          parseDigits (formatYear ⟨4, some '/', true, MonthType.text⟩ ((yr : Int) + k))⟩ 0 =
          capFirst t ++ '/' :: formatYear ⟨4, some '/', true, MonthType.text⟩ ((yr : Int) + k) := by
        unfold apply_offset
        rw [hFYre]
        show capFirst (capFirst t) ++ '/' ::
            formatYear ⟨4, some '/', true, MonthType.text⟩ ((yr : Int) + k) =
          capFirst t ++ '/' :: formatYear ⟨4, some '/', true, MonthType.text⟩ ((yr : Int) + k)
        rw [capFirst_capFirst]
      rw [hback]
    · exact MonthType.noConfusion hnum
  · rcases hdisj with ⟨t, -, htext, -, -, -⟩ | ⟨hmtnone, -⟩
    · exact MonthType.noConfusion htext
    · subst hmtnone
      obtain ⟨hFMlen, hFMd, hFMparse⟩ := month_block_num hm1 hm12
      have hmp : 1 ≤ parseDigits (pyFormat 2 (m : Int)) ∧
          parseDigits (pyFormat 2 (m : Int)) ≤ 12 := by
        rw [hFMparse]
        exact ⟨hm1, hm12⟩
      have happ : apply_offset ⟨⟨2, some '/', true, MonthType.numeric⟩, m, none, yr⟩ k =
          pyFormat 2 (m : Int) ++ '/' ::
            formatYear ⟨2, some '/', true, MonthType.numeric⟩ ((yr : Int) + k) := rfl
      rw [happ]
      have hcl := reclassify_numSlash2 hFMlen hFMd hmp hFYlen hFYd
      rw [calculate_eq_of_classify hcl 0]
      have hback : apply_offset ⟨⟨2, some '/', true, MonthType.numeric⟩,
          parseDigits (pyFormat 2 (m : Int)), none,
          parseDigits (formatYear ⟨2, some '/', true, MonthType.numeric⟩ ((yr : Int) + k))⟩ 0 =
          pyFormat 2 (m : Int) ++ '/' ::
            formatYear ⟨2, some '/', true, MonthType.numeric⟩ ((yr : Int) + k) := by
        unfold apply_offset
        rw [hFYre]
        show pyFormat 2 ((parseDigits (pyFormat 2 (m : Int)) : Int)) ++
            '/' :: formatYear ⟨2, some '/', true, MonthType.numeric⟩ ((yr : Int) + k) =
          pyFormat 2 (m : Int) ++ '/' :: formatYear ⟨2, some '/', true, MonthType.numeric⟩ ((yr : Int) + k)
        rw [hFMparse]
      rw [hback]
  · rcases hdisj with ⟨t, -, htext, -, -, -⟩ | ⟨hmtnone, -⟩
    · exact MonthType.noConfusion htext
    · subst hmtnone
      obtain ⟨hFMlen, hFMd, hFMparse⟩ := month_block_num hm1 hm12
      have hmp : 1 ≤ parseDigits (pyFormat 2 (m : Int)) ∧
          parseDigits (pyFormat 2 (m : Int)) ≤ 12 := by
        rw [hFMparse]
        exact ⟨hm1, hm12⟩
      have happ : apply_offset ⟨⟨2, some '-', true, MonthType.numeric⟩, m, none, yr⟩ k =
          pyFormat 2 (m : Int) ++ '-' ::
            formatYear ⟨2, some '-', true, MonthType.numeric⟩ ((yr : Int) + k) := rfl
      rw [happ]
      have hcl := reclassify_numDash2 hFMlen hFMd hmp hFYlen hFYd
      rw [calculate_eq_of_classify hcl 0]
      have hback : apply_offset ⟨⟨2, some '-', true, MonthType.numeric⟩,
          parseDigits (pyFormat 2 (m : Int)), none,
          parseDigits (formatYear ⟨2, some '-', true, MonthType.numeric⟩ ((yr : Int) + k))⟩ 0 =
          pyFormat 2 (m : Int) ++ '-' ::
            formatYear ⟨2, some '-', true, MonthType.numeric⟩ ((yr : Int) + k) := by
        unfold apply_offset
        rw [hFYre]
        show pyFormat 2 ((parseDigits (pyFormat 2 (m : Int)) : Int)) ++
            '-' :: formatYear ⟨2, some '-', true, MonthType.numeric⟩ ((yr : Int) + k) =
          pyFormat 2 (m : Int) ++ '-' :: formatYear ⟨2, some '-', true, MonthType.numeric⟩ ((yr : Int) + k)
        rw [hFMparse]
      rw [hback]
  · rcases hdisj with ⟨t, -, htext, -, -, -⟩ | ⟨hmtnone, -⟩
    · exact MonthType.noConfusion htext
    · subst hmtnone
      obtain ⟨hFMlen, hFMd, hFMparse⟩ := month_block_num hm1 hm12
      have hmp : 1 ≤ parseDigits (pyFormat 2 (m : Int)) ∧
          parseDigits (pyFormat 2 (m : Int)) ≤ 12 := by
        rw [hFMparse]
        exact ⟨hm1, hm12⟩
      have happ : apply_offset ⟨⟨4, some '/', true, MonthType.numeric⟩, m, none, yr⟩ k =
          pyFormat 2 (m : Int) ++ '/' ::
            formatYear ⟨4, some '/', true, MonthType.numeric⟩ ((yr : Int) + k) := rfl
      rw [happ]
      have hcl := reclassify_numSlash4 hFMlen hFMd hmp hFYlen hFYd
      rw [calculate_eq_of_classify hcl 0]
      have hback : apply_offset ⟨⟨4, some '/', true, MonthType.numeric⟩,
          parseDigits (pyFormat 2 (m : Int)), none,
          parseDigits (formatYear ⟨4, some '/', true, MonthType.numeric⟩ ((yr : Int) + k))⟩ 0 =
          pyFormat 2 (m : Int) ++ '/' ::
            formatYear ⟨4, some '/', true, MonthType.numeric⟩ ((yr : Int) + k) := by
        unfold apply_offset
        rw [hFYre]
        show pyFormat 2 ((parseDigits (pyFormat 2 (m : Int)) : Int)) ++
            '/' :: formatYear ⟨4, some '/', true, MonthType.numeric⟩ ((yr : Int) + k) =
          pyFormat 2 (m : Int) ++ '/' :: formatYear ⟨4, some '/', true, MonthType.numeric⟩ ((yr : Int) + k)
        rw [hFMparse]
      rw [hback]
  · rcases hdisj with ⟨t, -, htext, -, -, -⟩ | ⟨hmtnone, -⟩
    · exact MonthType.noConfusion htext
    · subst hmtnone
      obtain ⟨hFMlen, hFMd, hFMparse⟩ := month_block_num hm1 hm12
      have hmp : 1 ≤ parseDigits (pyFormat 2 (m : Int)) ∧
          parseDigits (pyFormat 2 (m : Int)) ≤ 12 := by
        rw [hFMparse]
        exact ⟨hm1, hm12⟩
      have happ : apply_offset ⟨⟨4, some '-', true, MonthType.numeric⟩, m, none, yr⟩ k =
          pyFormat 2 (m : Int) ++ '-' ::
            formatYear ⟨4, some '-', true, MonthType.numeric⟩ ((yr : Int) + k) := rfl
      rw [happ]
      have hcl := reclassify_numDash4 hFMlen hFMd hmp hFYlen hFYd
      rw [calculate_eq_of_classify hcl 0]
      have hback : apply_offset ⟨⟨4, some '-', true, MonthType.numeric⟩,
          parseDigits (pyFormat 2 (m : Int)), none,
          parseDigits (formatYear ⟨4, some '-', true, MonthType.numeric⟩ ((yr : Int) + k))⟩ 0 =
          pyFormat 2 (m : Int) ++ '-' ::
            formatYear ⟨4, some '-', true, MonthType.numeric⟩ ((yr : Int) + k) := by
        unfold apply_offset
        rw [hFYre]
        show pyFormat 2 ((parseDigits (pyFormat 2 (m : Int)) : Int)) ++
            '-' :: formatYear ⟨4, some '-', true, MonthType.numeric⟩ ((yr : Int) + k) =
          pyFormat 2 (m : Int) ++ '-' :: formatYear ⟨4, some '-', true, MonthType.numeric⟩ ((yr : Int) + k)
        rw [hFMparse]
      rw [hback]
  · rcases hdisj with ⟨t, -, htext, -, -, -⟩ | ⟨hmtnone, -⟩
    · exact MonthType.noConfusion htext
    · subst hmtnone
      obtain ⟨hFMlen, hFMd, hFMparse⟩ := month_block_num hm1 hm12
      have hmp : 1 ≤ parseDigits (pyFormat 2 (m : Int)) ∧
          parseDigits (pyFormat 2 (m : Int)) ≤ 12 := by
        rw [hFMparse]
        exact ⟨hm1, hm12⟩
      have happ : apply_offset ⟨⟨4, some '/', false, MonthType.numeric⟩, m, none, yr⟩ k =
          formatYear ⟨4, some '/', false, MonthType.numeric⟩ ((yr : Int) + k) ++ '/' ::
            pyFormat 2 (m : Int) := rfl
      rw [happ]
      have hcl := reclassify_numYFSlash hFMlen hFMd hmp hFYlen hFYd
      rw [calculate_eq_of_classify hcl 0]
      have hback : apply_offset ⟨⟨4, some '/', false, MonthType.numeric⟩,
          parseDigits (pyFormat 2 (m : Int)), none,
          parseDigits (formatYear ⟨4, some '/', false, MonthType.numeric⟩ ((yr : Int) + k))⟩ 0 =
          formatYear ⟨4, some '/', false, MonthType.numeric⟩ ((yr : Int) + k) ++ '/' ::
            pyFormat 2 (m : Int) := by
        unfold apply_offset
        rw [hFYre]
        show formatYear ⟨4, some '/', false, MonthType.numeric⟩ ((yr : Int) + k) ++ '/' ::
            pyFormat 2 ((parseDigits (pyFormat 2 (m : Int)) : Int)) =
          formatYear ⟨4, some '/', false, MonthType.numeric⟩ ((yr : Int) + k) ++ '/' :: pyFormat 2 (m : Int)
        rw [hFMparse]
      rw [hback]
  · rcases hdisj with ⟨t, -, htext, -, -, -⟩ | ⟨hmtnone, -⟩
    · exact MonthType.noConfusion htext
    · subst hmtnone
      obtain ⟨hFMlen, hFMd, hFMparse⟩ := month_block_num hm1 hm12
      have hmp : 1 ≤ parseDigits (pyFormat 2 (m : Int)) ∧
          parseDigits (pyFormat 2 (m : Int)) ≤ 12 := by
        rw [hFMparse]
        exact ⟨hm1, hm12⟩
      have happ : apply_offset ⟨⟨4, some '-', false, MonthType.numeric⟩, m, none, yr⟩ k =
          formatYear ⟨4, some '-', false, MonthType.numeric⟩ ((yr : Int) + k) ++ '-' ::
            pyFormat 2 (m : Int) := rfl
      rw [happ]
      have hcl := reclassify_numYFDash hFMlen hFMd hmp hFYlen hFYd
      rw [calculate_eq_of_classify hcl 0]
      have hback : apply_offset ⟨⟨4, some '-', false, MonthType.numeric⟩,
          parseDigits (pyFormat 2 (m : Int)), none,
          parseDigits (formatYear ⟨4, some '-', false, MonthType.numeric⟩ ((yr : Int) + k))⟩ 0 =
          formatYear ⟨4, some '-', false, MonthType.numeric⟩ ((yr : Int) + k) ++ '-' ::
            pyFormat 2 (m : Int) := by
        unfold apply_offset
        rw [hFYre]
        show formatYear ⟨4, some '-', false, MonthType.numeric⟩ ((yr : Int) + k) ++ '-' ::
            pyFormat 2 ((parseDigits (pyFormat 2 (m : Int)) : Int)) =
          formatYear ⟨4, some '-', false, MonthType.numeric⟩ ((yr : Int) + k) ++ '-' :: pyFormat 2 (m : Int)
        rw [hFMparse]
      rw [hback]
  · rcases hdisj with ⟨t, -, htext, -, -, -⟩ | ⟨hmtnone, -⟩
    · exact MonthType.noConfusion htext
    · subst hmtnone
      obtain ⟨hFMlen, hFMd, hFMparse⟩ := month_block_num hm1 hm12
      have hmp : 1 ≤ parseDigits (pyFormat 2 (m : Int)) ∧
          parseDigits (pyFormat 2 (m : Int)) ≤ 12 := by
        rw [hFMparse]
        exact ⟨hm1, hm12⟩
      have happ : apply_offset ⟨⟨2, none, true, MonthType.numeric⟩, m, none, yr⟩ k =
          pyFormat 2 (m : Int) ++ formatYear ⟨2, none, true, MonthType.numeric⟩ ((yr : Int) + k) := rfl
      rw [happ]
      have hcl := reclassify_nosep2 hFMlen hFMd hmp hFYlen hFYd
      rw [calculate_eq_of_classify hcl 0]
      have hback : apply_offset ⟨⟨2, none, true, MonthType.numeric⟩,
          parseDigits (pyFormat 2 (m : Int)), none,
          parseDigits (formatYear ⟨2, none, true, MonthType.numeric⟩ ((yr : Int) + k))⟩ 0 =
          pyFormat 2 (m : Int) ++ formatYear ⟨2, none, true, MonthType.numeric⟩ ((yr : Int) + k) := by
        unfold apply_offset
        rw [hFYre]
        show pyFormat 2 ((parseDigits (pyFormat 2 (m : Int)) : Int)) ++
            formatYear ⟨2, none, true, MonthType.numeric⟩ ((yr : Int) + k) =
          pyFormat 2 (m : Int) ++ formatYear ⟨2, none, true, MonthType.numeric⟩ ((yr : Int) + k)
        rw [hFMparse]
      rw [hback]
  · rcases hdisj with ⟨t, -, htext, -, -, -⟩ | ⟨hmtnone, -⟩
    · exact MonthType.noConfusion htext
    · subst hmtnone
      obtain ⟨hFMlen, hFMd, hFMparse⟩ := month_block_num hm1 hm12
      have hmp : 1 ≤ parseDigits (pyFormat 2 (m : Int)) ∧
          parseDigits (pyFormat 2 (m : Int)) ≤ 12 := by
        rw [hFMparse]
        exact ⟨hm1, hm12⟩
      have happ : apply_offset ⟨⟨4, none, true, MonthType.numeric⟩, m, none, yr⟩ k =
          pyFormat 2 (m : Int) ++ formatYear ⟨4, none, true, MonthType.numeric⟩ ((yr : Int) + k) := rfl
      rw [happ]
      have hcl := reclassify_nosep4 hFMlen hFMd hmp hFYlen hFYd
      rw [calculate_eq_of_classify hcl 0]
      have hback : apply_offset ⟨⟨4, none, true, MonthType.numeric⟩,
          parseDigits (pyFormat 2 (m : Int)), none,
          parseDigits (formatYear ⟨4, none, true, MonthType.numeric⟩ ((yr : Int) + k))⟩ 0 =
          pyFormat 2 (m : Int) ++ formatYear ⟨4, none, true, MonthType.numeric⟩ ((yr : Int) + k) := by
        unfold apply_offset
        rw [hFYre]
        show pyFormat 2 ((parseDigits (pyFormat 2 (m : Int)) : Int)) ++
            formatYear ⟨4, none, true, MonthType.numeric⟩ ((yr : Int) + k) =
          pyFormat 2 (m : Int) ++ formatYear ⟨4, none, true, MonthType.numeric⟩ ((yr : Int) + k)
        rw [hFMparse]
      rw [hback]

/-- Claim C8, counterexample: applying the transform to its own output
with offset 0 does not always return that output.  "08/9999" with +3
produces "08/10002", whose 5-digit year matches no rule, so the transform
of the output returns NoMatch instead of the output. -/
theorem claim_C8_counterexample :
    calculate_new_expiry "08/9999" 3 = some "08/10002" ∧
    calculate_new_expiry "08/10002" 0 = none := by decide

/-- Claim C8 (amended): applying the transform with offset 0 to an output
returns the identical string whenever the matched rule has a 2-digit year
width, or the new 4-digit year value lies within 0..9999 — i.e. whenever
the rendered year again has the rule's digit width. -/
theorem claim_C8_amended (s : String) (k : Int) (y : String) (p : Parsed)
    (hc : classify s = some p) (hy : calculate_new_expiry s k = some y)
    (hw : p.rule.year_length = 2 ∨
      (0 ≤ (p.year : Int) + k ∧ (p.year : Int) + k < 10000)) :
    calculate_new_expiry y 0 = some y := by
  obtain ⟨p', hc', hy'⟩ := calculate_some_inv hy
  rw [hc] at hc'
  injection hc' with hc'
  subst hc'
  subst hy'
  exact roundtrip p (classify_some_inv hc).1 k hw

theorem claim_C8_witness :
    calculate_new_expiry "Aug-32" 0 = some "Aug-32" :=
  claim_C8_amended "Aug-29" 3 "Aug-32"
    ⟨⟨2, some '-', true, MonthType.text⟩, 8, some ("Aug".data), 29⟩
    (by decide) (by decide) (Or.inl rfl)

